import Mathlib

/-!
Verification development for the `find-this-var` variable-usage search engine
(`src/findBoundVariables.ts`, rich asynchronous variant).

The embedding models the document tree, the alias/key reference resolver with
its per-search caches, the recursive traversal with pruning, representative
(instance) deduplication, progress reporting and cooperative cancellation.

Modelling conventions:
* the Figma API call `figma.variables.getVariableById` is an explicit
  environment `String → LookupResult` (`found` / `notFound` = returns null /
  `throws` = the call throws);
* host callbacks are explicit: `shouldCancel` is a function of the internal
  visited counter (the only clock observable between polls), progress and
  streaming events are recorded in the search state instead of being sent;
* a node's property inspection throwing is modelled by the flag `propsThrow`
  (the exception is raised at the first property access, i.e. before any
  property of the node is matched); `compPropsThrow` models a throw while
  reading `componentProperties` (caught by the nested try/catch in the
  source); `childrenThrow` models a throw when accessing `node.children`;
* `await`/`setTimeout` yields are no-ops for the pure semantics;
* JS `Map`/`Set` are association lists / lists with first-match lookup, a
  `set` being a prepend (first match emulates overwrite).
-/

namespace FindThisVar

/-- A variable definition (the queried target): id, stable key, name. -/
structure VariableDef where
  id : String
  key : String
  vname : String
deriving DecidableEq

/-- A `VariableAlias` as stored in a node's bound-variable slots. -/
structure VarAlias where
  id : String
deriving DecidableEq

/-- Outcome of `figma.variables.getVariableById`. -/
inductive LookupResult where
  | found (v : VariableDef)
  | notFound
  | throws
deriving DecidableEq

/-- A paint (fill or stroke): its `type` tag and the optional
`boundVariables?.color` alias. -/
structure Paint where
  ptype : String
  colorAlias : Option VarAlias
deriving DecidableEq

/-- An effect: its `type` tag and the optional bound-variable aliases the
source inspects (`color`, `offset.x`, `offset.y`, `radius`, `spread`). -/
structure EffectProps where
  etype : String
  color : Option VarAlias
  offsetX : Option VarAlias
  offsetY : Option VarAlias
  radius : Option VarAlias
  spread : Option VarAlias
deriving DecidableEq

/-- The common `node.boundVariables` slots the source inspects. -/
structure BoundVars where
  width : Option VarAlias
  height : Option VarAlias
  paddingLeft : Option VarAlias
  paddingRight : Option VarAlias
  paddingTop : Option VarAlias
  paddingBottom : Option VarAlias
  itemSpacing : Option VarAlias
  counterAxisSpacing : Option VarAlias
  characters : Option VarAlias
deriving DecidableEq

/-- A `boundVariables` record with no slot bound. -/
def noBoundVars : BoundVars :=
  ⟨none, none, none, none, none, none, none, none, none⟩

/-- One entry of `componentProperties`: property name and the optional
`boundVariables?.value` alias. -/
structure CompProperty where
  pname : String
  value : Option VarAlias
deriving DecidableEq

/-- All per-node data of a scene node except its children. -/
structure NodeData where
  id : String
  nname : String
  ntype : String
  visible : Bool
  locked : Bool
  fills : List Paint
  strokes : List Paint
  bound : BoundVars
  effects : List EffectProps
  compProps : List CompProperty
  propsThrow : Bool
  compPropsThrow : Bool
  childrenThrow : Bool
deriving DecidableEq

mutual
/-- A scene node: data plus ordered children. -/
inductive SceneNode : Type where
  | mk : NodeData → NodeList → SceneNode

/-- Ordered list of child scene nodes (mutual with `SceneNode` so that all
traversals are structurally recursive and kernel-computable). -/
inductive NodeList : Type where
  | nil : NodeList
  | cons : SceneNode → NodeList → NodeList
end

/-- The data of a scene node. -/
def SceneNode.data : SceneNode → NodeData
  | .mk d _ => d

/-- The children of a scene node. -/
def SceneNode.children : SceneNode → NodeList
  | .mk _ cs => cs

/-- A page (`figma.root.children` element): id, name, `type` tag, children. -/
structure Page where
  id : String
  pname : String
  ptype : String
  children : NodeList

/-- The document: `figma.root.children`. -/
structure Document where
  pages : List Page

/-- Per-search reference-resolver state: the fast-path set
`targetVariableIds`, the id→key memoization map `variableKeyCache`, the
id→variable object cache `variableCache`, plus an instrumentation log of the
ids passed to `figma.variables.getVariableById` (one entry per actual API
call). -/
structure ResolverState where
  targetVariableIds : List String
  variableKeyCache : List (String × String)
  variableCache : List (String × VariableDef)
  lookupLog : List String
deriving DecidableEq

/-- A progress event: the arguments of `onProgress(current, total,
nodesFound)`. -/
structure ProgressEvent where
  current : Nat
  total : Nat
  nodesFound : Nat
deriving DecidableEq

/-- A streaming match event (`onStreamingResult`). -/
structure StreamEvent where
  variableId : String
  variableName : String
  instId : String
  instName : String
  instType : String
  instPageName : String
deriving DecidableEq

/-- A result record (`BoundNodeInfo`). -/
structure BoundNodeInfo where
  node : SceneNode
  boundProperties : List String
  propertyPath : String
  pageName : String

/-- The optional search callbacks: presence flags plus the cancellation
poll, a function of the visited counter at poll time. -/
structure Callbacks where
  hasOnProgress : Bool
  hasOnStreamingResult : Bool
  hasShouldCancel : Bool
  shouldCancel : Nat → Bool

/-- Callbacks absent (as in `getVariableUsageSummary`). -/
def noCallbacks : Callbacks :=
  ⟨false, false, false, fun _ => false⟩

/-- The mutable state of one search invocation. -/
structure SearchState where
  resolver : ResolverState
  processedInstanceNames : List String
  nodesProcessed : Nat
  boundNodes : List BoundNodeInfo
  progressEvents : List ProgressEvent
  streamEvents : List StreamEvent

/-- The per-search configuration threaded through the traversal. -/
structure SearchConfig where
  env : String → LookupResult
  variableDef : VariableDef
  instancesOnly : Bool
  cbs : Callbacks
  totalNodes : Nat

/-- The observable outcome of a search: the returned record list plus the
event streams, counters and the cancellation flag. -/
structure SearchResult where
  boundNodes : List BoundNodeInfo
  progressEvents : List ProgressEvent
  streamEvents : List StreamEvent
  nodesProcessed : Nat
  totalNodes : Nat
  cancelled : Bool

/-- First-match association-list lookup (JS `Map.get`; keys are unique in a
JS map, insertion at the front emulates overwrite). -/
def lookupAssoc {β : Type} : List (String × β) → String → Option β
  | [], _ => none
  | e :: rest, k => if e.1 == k then some e.2 else lookupAssoc rest k

/-- `isMatchingVariable` from the source: fast-path set membership, then the
per-search key cache, then the variable-object cache, then one
`getVariableById` call whose outcome (including failure, cached as the empty
sentinel) is memoized. Returns the match verdict and the updated state. -/
def isMatchingVariable (env : String → LookupResult) (variableKey : String)
    (s : ResolverState) (boundVar : VarAlias) : Bool × ResolverState :=
  if s.targetVariableIds.contains boundVar.id then
    (true, s)
  else
    match lookupAssoc s.variableKeyCache boundVar.id with
    | some cachedKey => (cachedKey == variableKey, s)
    | none =>
      match lookupAssoc s.variableCache boundVar.id with
      | some referencedVar =>
          let cachedKey := referencedVar.key
          let s1 := { s with
            variableKeyCache := (boundVar.id, cachedKey) :: s.variableKeyCache }
          let s2 :=
            if cachedKey == variableKey then
              { s1 with targetVariableIds := boundVar.id :: s1.targetVariableIds }
            else s1
          (cachedKey == variableKey, s2)
      | none =>
          let s0 := { s with lookupLog := s.lookupLog ++ [boundVar.id] }
          match env boundVar.id with
          | .found fetchedVar =>
              let s1 := { s0 with
                variableCache := (boundVar.id, fetchedVar) :: s0.variableCache }
              let cachedKey := fetchedVar.key
              let s2 := { s1 with
                variableKeyCache := (boundVar.id, cachedKey) :: s1.variableKeyCache }
              let s3 :=
                if cachedKey == variableKey then
                  { s2 with targetVariableIds := boundVar.id :: s2.targetVariableIds }
                else s2
              (cachedKey == variableKey, s3)
          | .notFound =>
              (false, { s0 with
                variableKeyCache := (boundVar.id, "") :: s0.variableKeyCache })
          | .throws =>
              (false, { s0 with
                variableKeyCache := (boundVar.id, "") :: s0.variableKeyCache })

/-- The resolver state as initialized at the top of
`findNodesWithBoundVariable`. -/
def initialResolverState (v : VariableDef) : ResolverState :=
  { targetVariableIds := [v.id]
    variableKeyCache := [(v.id, v.key)]
    variableCache := [(v.id, v)]
    lookupLog := [] }

/-- The loop of `findTopLevelInstance`: climb the parent chain (the node
itself first), remembering the latest `INSTANCE` seen together with the rest
of the chain above it; stop after examining the node whose parent is the
page (the chain's last element). -/
def findTopLevelInstanceLoop :
    Option (SceneNode × List SceneNode) → List SceneNode →
    Option (SceneNode × List SceneNode)
  | top, [] => top
  | top, cur :: rest =>
      findTopLevelInstanceLoop
        (if cur.data.ntype == "INSTANCE" then some (cur, rest) else top) rest

/-- `findTopLevelInstance` from the source: the chain is `node` followed by
its ancestors (`anc`, nearest first, up to but excluding the page); the loop
keeps overwriting, so the result is the outermost `INSTANCE` on the chain,
paired with its own ancestor chain. -/
def findTopLevelInstance (node : SceneNode) (anc : List SceneNode) :
    Option (SceneNode × List SceneNode) :=
  findTopLevelInstanceLoop none (node :: anc)

/-- JS `node.name || node.type` (empty name is falsy). -/
def nameOrType (n : SceneNode) : String :=
  if n.data.nname == "" then n.data.ntype else n.data.nname

/-- `getNodePath` from the source: collect `name || type` while climbing
until the parent is the page; in the rooted tree this is the chain minus its
last element (the page child), printed outermost first. -/
def getNodePath (node : SceneNode) (anc : List SceneNode) : String :=
  let chain := node :: anc
  let path := (chain.dropLast).reverse.map nameOrType
  if path.length > 0 then String.intercalate " > " path else nameOrType node

/-- `getNodePage` resolved for the page a node is climbed to: the page's
`name || "Unnamed Page"`. -/
def getNodePageName (p : Page) : String :=
  if p.pname == "" then "Unnamed Page" else p.pname

/-- Check one optional bound-variable alias: when present and matching,
append the property path to the accumulated list (threading the resolver
state). -/
def checkAliasProp (env : String → LookupResult) (vk : String)
    (oa : Option VarAlias) (pathStr : String)
    (acc : List String × ResolverState) : List String × ResolverState :=
  match oa with
  | none => acc
  | some a =>
      let r := isMatchingVariable env vk acc.2 a
      (if r.1 then acc.1 ++ [pathStr] else acc.1, r.2)

/-- The `fills`/`strokes` loop: for each `SOLID` paint with a bound color
alias, record `pfx[index].color` on a match. -/
def checkPaints (env : String → LookupResult) (vk : String) (pfx : String) :
    Nat → List Paint → (List String × ResolverState) →
    List String × ResolverState
  | _, [], acc => acc
  | i, p :: rest, acc =>
      let acc :=
        if p.ptype == "SOLID" then
          checkAliasProp env vk p.colorAlias
            (pfx ++ "[" ++ toString i ++ "].color") acc
        else acc
      checkPaints env vk pfx (i + 1) rest acc

/-- The common `boundVariables` checks: width, height, the four paddings,
item/counter-axis spacing, and `characters` for `TEXT` nodes. -/
def checkCommonBoundVars (env : String → LookupResult) (vk : String)
    (d : NodeData) (acc : List String × ResolverState) :
    List String × ResolverState :=
  let acc := checkAliasProp env vk d.bound.width "width" acc
  let acc := checkAliasProp env vk d.bound.height "height" acc
  let acc := checkAliasProp env vk d.bound.paddingLeft "paddingLeft" acc
  let acc := checkAliasProp env vk d.bound.paddingRight "paddingRight" acc
  let acc := checkAliasProp env vk d.bound.paddingTop "paddingTop" acc
  let acc := checkAliasProp env vk d.bound.paddingBottom "paddingBottom" acc
  let acc := checkAliasProp env vk d.bound.itemSpacing "itemSpacing" acc
  let acc := checkAliasProp env vk d.bound.counterAxisSpacing "counterAxisSpacing" acc
  if d.ntype == "TEXT" then
    checkAliasProp env vk d.bound.characters "characters" acc
  else acc

/-- The `effects` loop: shadow effects check color, offset.x, offset.y,
radius and spread; blur effects check radius. -/
def checkEffects (env : String → LookupResult) (vk : String) :
    Nat → List EffectProps → (List String × ResolverState) →
    List String × ResolverState
  | _, [], acc => acc
  | i, e :: rest, acc =>
      let pfx := "effects[" ++ toString i ++ "]"
      let acc :=
        if e.etype == "DROP_SHADOW" || e.etype == "INNER_SHADOW" then
          let acc := checkAliasProp env vk e.color (pfx ++ ".color") acc
          let acc := checkAliasProp env vk e.offsetX (pfx ++ ".offset.x") acc
          let acc := checkAliasProp env vk e.offsetY (pfx ++ ".offset.y") acc
          let acc := checkAliasProp env vk e.radius (pfx ++ ".radius") acc
          checkAliasProp env vk e.spread (pfx ++ ".spread") acc
        else acc
      let acc :=
        if e.etype == "LAYER_BLUR" || e.etype == "BACKGROUND_BLUR" then
          checkAliasProp env vk e.radius (pfx ++ ".radius") acc
        else acc
      checkEffects env vk (i + 1) rest acc

/-- The `componentProperties` loop (for `INSTANCE` nodes): record
`componentProperties.<name>` on a bound-value match. -/
def checkCompProps (env : String → LookupResult) (vk : String) :
    List CompProperty → (List String × ResolverState) →
    List String × ResolverState
  | [], acc => acc
  | cp :: rest, acc =>
      let acc :=
        checkAliasProp env vk cp.value ("componentProperties." ++ cp.pname) acc
      checkCompProps env vk rest acc

/-- The whole property-inspection phase of `checkNode` (reached only when
the node is visible, unlocked, and its inspection does not throw): the fixed
sequence fills, strokes, common bound variables, effects, then component
properties for instances. A `componentProperties` throw is caught by the
nested try/catch: the node keeps its other matches and traversal goes on. -/
def inspectProperties (env : String → LookupResult) (vk : String)
    (d : NodeData) (s : ResolverState) : List String × ResolverState :=
  let acc := checkPaints env vk "fills" 0 d.fills ([], s)
  let acc := checkPaints env vk "strokes" 0 d.strokes acc
  let acc := checkCommonBoundVars env vk d acc
  let acc := checkEffects env vk 0 d.effects acc
  if d.ntype == "INSTANCE" then
    if d.compPropsThrow then acc
    else checkCompProps env vk d.compProps acc
  else acc

/-- The `boundProperties.length > 0` block of `checkNode`: in direct mode
append a record for the node itself; in `instancesOnly` mode climb to the
top-level instance, drop the match when there is none, dedupe on the
instance NAME via `processedInstanceNames`, and emit a streaming event for a
newly recorded instance. -/
def recordMatch (cfg : SearchConfig) (node : SceneNode)
    (anc : List SceneNode) (pageName : String)
    (boundProperties : List String) (s : SearchState) : SearchState :=
  if boundProperties.length > 0 then
    if cfg.instancesOnly then
      match findTopLevelInstance node anc with
      | some ti =>
          let topInstance := ti.1
          let topAnc := ti.2
          if s.processedInstanceNames.contains topInstance.data.nname then s
          else
            let s1 := { s with
              processedInstanceNames :=
                topInstance.data.nname :: s.processedInstanceNames
              boundNodes := s.boundNodes ++
                [{ node := topInstance, boundProperties,
                   propertyPath := getNodePath topInstance topAnc, pageName }] }
            if cfg.cbs.hasOnStreamingResult then
              { s1 with streamEvents := s1.streamEvents ++
                  [{ variableId := cfg.variableDef.id
                     variableName := cfg.variableDef.vname
                     instId := topInstance.data.id
                     instName := topInstance.data.nname
                     instType := topInstance.data.ntype
                     instPageName := pageName }] }
            else s1
      | none => s
    else
      { s with boundNodes := s.boundNodes ++
          [{ node, boundProperties,
             propertyPath := getNodePath node anc, pageName }] }
  else s

/-- The emission condition of the in-traversal progress update: every 10th
visit, or the first visit, or the visit whose ordinal equals the pre-pass
total (evaluated with the post-increment counter `np`). -/
def progressCondition (cfg : SearchConfig) (np : Nat) : Bool :=
  cfg.cbs.hasOnProgress && decide (0 < cfg.totalNodes) &&
    (np % 10 == 0 || np == 1 || np == cfg.totalNodes)

mutual
/-- `checkNode` from the source. Returns `(shouldContinue, state)`;
`shouldContinue = false` signals cancellation. Steps: cancellation poll,
visited-counter increment, cadence progress event, visibility/lock pruning,
property inspection (a `propsThrow` jumps to the catch: the node is a
non-match and its subtree is skipped), match recording, then recursion into
the children (skipped when accessing the children list throws). -/
def checkNode (cfg : SearchConfig) (pageName : String)
    (anc : List SceneNode) : SceneNode → SearchState → Bool × SearchState
  | SceneNode.mk d children, s0 =>
    if cfg.cbs.hasShouldCancel && cfg.cbs.shouldCancel s0.nodesProcessed then
      (false, s0)
    else
      let s1 := { s0 with nodesProcessed := s0.nodesProcessed + 1 }
      let s2 :=
        if progressCondition cfg s1.nodesProcessed then
          { s1 with progressEvents := s1.progressEvents ++
              [{ current := min s1.nodesProcessed cfg.totalNodes
                 total := cfg.totalNodes
                 nodesFound := s1.boundNodes.length }] }
        else s1
      if d.visible == false then (true, s2)
      else if d.locked == true then (true, s2)
      else if d.propsThrow then (true, s2)
      else
        let pr := inspectProperties cfg.env cfg.variableDef.key d s2.resolver
        let s3 := { s2 with resolver := pr.2 }
        let s4 := recordMatch cfg (SceneNode.mk d children) anc pageName pr.1 s3
        if d.childrenThrow then (true, s4)
        else checkChildren cfg pageName (SceneNode.mk d children :: anc) children s4

/-- The `for (const child of node.children)` loop of `checkNode`:
propagates cancellation (stops at the first child returning `false`). -/
def checkChildren (cfg : SearchConfig) (pageName : String)
    (anc : List SceneNode) : NodeList → SearchState → Bool × SearchState
  | NodeList.nil, s => (true, s)
  | NodeList.cons c cs, s =>
      let r := checkNode cfg pageName anc c s
      if r.1 then checkChildren cfg pageName anc cs r.2 else (false, r.2)
end

mutual
/-- `findInstancesInNode` from the source (`instancesOnly` pre-scan): run
`checkNode` on every `INSTANCE` encountered (no visibility/lock check while
scanning), and keep scanning the children in every case. -/
def findInstancesInNode (cfg : SearchConfig) (pageName : String)
    (anc : List SceneNode) : SceneNode → SearchState → Bool × SearchState
  | SceneNode.mk d children, s =>
      let r :=
        if d.ntype == "INSTANCE" then
          checkNode cfg pageName anc (SceneNode.mk d children) s
        else (true, s)
      if r.1 then
        findInstancesInList cfg pageName
          (SceneNode.mk d children :: anc) children r.2
      else (false, r.2)

/-- The child loop of the instance pre-scan. -/
def findInstancesInList (cfg : SearchConfig) (pageName : String)
    (anc : List SceneNode) : NodeList → SearchState → Bool × SearchState
  | NodeList.nil, s => (true, s)
  | NodeList.cons c cs, s =>
      let r := findInstancesInNode cfg pageName anc c s
      if r.1 then findInstancesInList cfg pageName anc cs r.2
      else (false, r.2)
end

mutual
/-- `countNodes`: the node plus all its descendants. -/
def countNodes : SceneNode → Nat
  | .mk _ cs => 1 + countNodesList cs

/-- Sum of `countNodes` over a child list. -/
def countNodesList : NodeList → Nat
  | .nil => 0
  | .cons c cs => countNodes c + countNodesList cs
end

mutual
/-- `countInstanceNodes`: for every `INSTANCE` encountered add the size of
its whole subtree (nested instances are counted again, mirroring the
re-traversal done by the pre-scan). -/
def countInstanceNodes : SceneNode → Nat
  | .mk d cs =>
      (if d.ntype == "INSTANCE" then countNodes (.mk d cs) else 0) +
        countInstanceNodesList cs

/-- Sum of `countInstanceNodes` over a child list. -/
def countInstanceNodesList : NodeList → Nat
  | .nil => 0
  | .cons c cs => countInstanceNodes c + countInstanceNodesList cs
end

/-- The contribution of one page to the pre-pass total. -/
def pageTotal (instancesOnly : Bool) (p : Page) : Nat :=
  if p.ptype == "PAGE" then
    if instancesOnly then countInstanceNodesList p.children
    else countNodesList p.children
  else 0

/-- The page loop of `findNodesWithBoundVariable`: pages are processed in
order; once `cancelled` is observed the remaining pages are skipped (the
loop itself still iterates, changing nothing). -/
def runPages (cfg : SearchConfig) :
    List Page → SearchState × Bool → SearchState × Bool
  | [], acc => acc
  | p :: rest, (s, cancelled) =>
      if p.ptype == "PAGE" && !cancelled then
        let pageName := getNodePageName p
        let r :=
          if cfg.instancesOnly then
            findInstancesInList cfg pageName [] p.children s
          else
            checkChildren cfg pageName [] p.children s
        runPages cfg rest (r.2, if r.1 then cancelled else true)
      else runPages cfg rest (s, cancelled)

/-- JS truthiness of the optional `pageId` (both `null`/`undefined` and the
empty string are falsy). -/
def pageIdTruthy : Option String → Bool
  | none => false
  | some s => !(s == "")

/-- The pages the search will walk: all of `figma.root.children`, or only
the page with the given id when a truthy `pageId` is supplied. -/
def searchedPages (doc : Document) (pageId : Option String) : List Page :=
  if pageIdTruthy pageId then
    doc.pages.filter (fun p => p.id == pageId.getD "")
  else doc.pages

/-- The search state as initialized at the top of
`findNodesWithBoundVariable`: fresh caches seeded with the queried variable,
all counters zero, no records or events. -/
def initialSearchState (v : VariableDef) : SearchState :=
  { resolver := initialResolverState v
    processedInstanceNames := []
    nodesProcessed := 0
    boundNodes := []
    progressEvents := []
    streamEvents := [] }

/-- The scope lookup failed: a truthy `pageId` matching no page
(`pageId && pagesToSearch.length === 0`). -/
def scopeMissing (doc : Document) (pageId : Option String) : Bool :=
  pageIdTruthy pageId && (searchedPages doc pageId).length == 0

/-- The pre-pass total (`totalNodes`) over the searched pages. -/
def searchTotal (doc : Document) (io : Bool) (pageId : Option String) : Nat :=
  ((searchedPages doc pageId).map (pageTotal io)).sum

/-- The per-search configuration assembled by the orchestrator. -/
def searchCfg (doc : Document) (env : String → LookupResult)
    (v : VariableDef) (io : Bool) (pageId : Option String)
    (cbs : Callbacks) : SearchConfig :=
  { env, variableDef := v, instancesOnly := io, cbs
    totalNodes := searchTotal doc io pageId }

/-- The state entering the page loop: the fresh per-search state, with the
initial `onProgress(0, total, 0)` event when applicable. -/
def searchStart (doc : Document) (v : VariableDef) (io : Bool)
    (pageId : Option String) (cbs : Callbacks) : SearchState :=
  if cbs.hasOnProgress && decide (0 < searchTotal doc io pageId) then
    { initialSearchState v with progressEvents :=
        [{ current := 0, total := searchTotal doc io pageId
           nodesFound := 0 }] }
  else initialSearchState v

/-- The page loop's outcome: final state and the `cancelled` flag. -/
def searchRun (doc : Document) (env : String → LookupResult)
    (v : VariableDef) (io : Bool) (pageId : Option String)
    (cbs : Callbacks) : SearchState × Bool :=
  runPages (searchCfg doc env v io pageId cbs) (searchedPages doc pageId)
    (searchStart doc v io pageId cbs, false)

/-- `findNodesWithBoundVariable` from the source: resolve the page scope
(returning an empty result when a truthy `pageId` matches no page), run the
pre-pass count (`searchTotal`), emit the initial progress event
(`searchStart`), walk every page in order (`searchRun`), then emit the
final progress event when not cancelled. -/
def findNodesWithBoundVariable (doc : Document)
    (env : String → LookupResult) (v : VariableDef) (instancesOnly : Bool)
    (pageId : Option String) (cbs : Callbacks) : SearchResult :=
  if scopeMissing doc pageId then
    { boundNodes := [], progressEvents := [], streamEvents := []
      nodesProcessed := 0, totalNodes := 0, cancelled := false }
  else
    let totalNodes := searchTotal doc instancesOnly pageId
    let r := searchRun doc env v instancesOnly pageId cbs
    let sEnd := r.1
    let cancelled := r.2
    let sEnd2 :=
      if cbs.hasOnProgress && decide (0 < totalNodes) && !cancelled then
        { sEnd with progressEvents := sEnd.progressEvents ++
            [{ current := totalNodes, total := totalNodes
               nodesFound := sEnd.boundNodes.length }] }
      else sEnd
    { boundNodes := sEnd2.boundNodes
      progressEvents := sEnd2.progressEvents
      streamEvents := sEnd2.streamEvents
      nodesProcessed := sEnd2.nodesProcessed
      totalNodes := totalNodes
      cancelled := cancelled }

/-- The usage summary returned by `getVariableUsageSummary`. -/
structure UsageSummary where
  totalNodes : Nat
  nodesByType : List (String × Nat)
  propertyUsage : List (String × Nat)
  nodes : List BoundNodeInfo

/-- Increment a counter in a JS `Record<string, number>` (insertion-ordered;
a missing key starts at 0). -/
def bump (m : List (String × Nat)) (k : String) : List (String × Nat) :=
  if m.any (fun e => e.1 == k) then
    m.map (fun e => if e.1 == k then (e.1, e.2 + 1) else e)
  else m ++ [(k, 1)]

/-- `prop.split("[")[0].split(".")[0]`: the base property name. -/
def baseProperty (p : String) : String :=
  let a := String.mk (p.toList.takeWhile (fun ch => ch ≠ '['))
  String.mk (a.toList.takeWhile (fun ch => ch ≠ '.'))

/-- `getVariableUsageSummary` from the source: run the search (without
callbacks) and aggregate counts by node type and by base property. -/
def getVariableUsageSummary (doc : Document)
    (env : String → LookupResult) (v : VariableDef) (instancesOnly : Bool)
    (pageId : Option String) : UsageSummary :=
  let boundNodes :=
    (findNodesWithBoundVariable doc env v instancesOnly pageId
      noCallbacks).boundNodes
  { totalNodes := boundNodes.length
    nodesByType :=
      boundNodes.foldl (fun m r => bump m r.node.data.ntype) []
    propertyUsage :=
      boundNodes.foldl
        (fun m r =>
          r.boundProperties.foldl (fun m2 p => bump m2 (baseProperty p)) m) []
    nodes := boundNodes }

/-! ## Concrete fixtures for the counterexamples and witnesses -/
/-- A plain visible, unlocked node with no bound properties. -/
def plainData (i nm ty : String) : NodeData :=
  { id := i, nname := nm, ntype := ty, visible := true, locked := false
    fills := [], strokes := [], bound := noBoundVars, effects := []
    compProps := [], propsThrow := false, compPropsThrow := false
    childrenThrow := false }

/-- A plain node whose first fill is a solid paint bound to alias `a`. -/
def fillData (i nm ty : String) (a : VarAlias) : NodeData :=
  { plainData i nm ty with fills := [⟨"SOLID", some a⟩] }

/-- The queried variable used in all fixtures. -/
def varX : VariableDef := ⟨"VX", "KX", "X"⟩

/-- An environment in which only `VX` exists. -/
def envX : String → LookupResult :=
  fun i => if i == "VX" then .found varX else .notFound

/-- A single-page document. -/
def onePage (cs : NodeList) : Document :=
  ⟨[{ id := "P1", pname := "Page 1", ptype := "PAGE", children := cs }]⟩

/-! ## Reference resolution: spec-side predicates and cache consistency -/
/-- Spec-side reading of "the key obtained by resolving the alias's id
equals the definition's key": resolution through the reference store
succeeds and yields exactly `vk`. -/
def resolvedKeyMatches (env : String → LookupResult) (i vk : String) : Bool :=
  match env i with
  | .found w => w.key == vk
  | .notFound => false
  | .throws => false

/-- Resolution of `i` fails: the lookup throws or returns nothing. -/
def resolutionFails (env : String → LookupResult) (i : String) : Bool :=
  match env i with
  | .found _ => false
  | .notFound => true
  | .throws => true

/-- Consistency of a resolver state with the environment and the queried
variable (`varId`, `vk`): the fast-path set contains the target id and only
ids whose resolved key is `vk`; every key-cache entry is the target's seed,
a truthfully resolved key, or the empty failure sentinel; every
variable-cache entry is the target's seed or a truthfully fetched variable.
All states reachable within one search from `initialResolverState` satisfy
this. -/
def ResolverConsistent (env : String → LookupResult) (varId vk : String)
    (s : ResolverState) : Bool :=
  s.targetVariableIds.contains varId &&
  s.targetVariableIds.all (fun i => i == varId || resolvedKeyMatches env i vk) &&
  s.variableKeyCache.all (fun e =>
    (e.1 == varId && e.2 == vk) ||
    (match env e.1 with
     | .found w => e.2 == w.key
     | .notFound => e.2 == ""
     | .throws => e.2 == "")) &&
  s.variableCache.all (fun e =>
    (e.1 == varId && e.2.key == vk) ||
    (match env e.1 with
     | .found w => e.2 == w
     | .notFound => false
     | .throws => false))

/-- A variable whose key is the empty string (the failure sentinel). -/
def varE : VariableDef := ⟨"VE", "", "E"⟩

/-- An environment in which every lookup throws. -/
def envThrowsAll : String → LookupResult := fun _ => .throws

/-- A variable with the empty key, used with a null-returning store. -/
def varN : VariableDef := ⟨"VN", "", "N"⟩

/-- An environment in which every lookup returns nothing. -/
def envNullAll : String → LookupResult := fun _ => .notFound

/-! ## C3: which representative the deduplicator climbs to -/
/-- Spec-side: the LAST `INSTANCE` of a parent chain listed innermost-first,
i.e. the outermost (top-level) instance between a node and its page. -/
def outermostInstance : List SceneNode → Option SceneNode
  | [] => none
  | x :: xs =>
      match outermostInstance xs with
      | some t => some t
      | none => if x.data.ntype == "INSTANCE" then some x else none

/-- A search configuration in representative-only mode over the fixture
environment. -/
def cfgW : SearchConfig :=
  { env := envX, variableDef := varX, instancesOnly := true
    cbs := noCallbacks, totalNodes := 0 }

/-- A matching rectangle nested inside instance `B` inside instance `A`. -/
def nodeR3 : SceneNode := .mk (fillData "R" "R" "RECTANGLE" ⟨"VX"⟩) .nil

/-- The inner (nearest enclosing) instance. -/
def nodeB3 : SceneNode := .mk (plainData "B" "B" "INSTANCE") (.cons nodeR3 .nil)

/-- The outer (top-level) instance. -/
def nodeA3 : SceneNode := .mk (plainData "A" "A" "INSTANCE") (.cons nodeB3 .nil)

/-! ## Tree infrastructure: subtrees, mutual induction, visible reach -/
mutual
/-- All nodes of a subtree (the root first). -/
def subtreeNodes : SceneNode → List SceneNode
  | .mk d cs => .mk d cs :: subtreeNodesList cs

/-- All nodes of a forest of subtrees. -/
def subtreeNodesList : NodeList → List SceneNode
  | .nil => []
  | .cons c cs => subtreeNodes c ++ subtreeNodesList cs
end

mutual
/-- The nodes reachable by the direct-mode walker: every node on a path on
which every node (itself included) is visible and unlocked. -/
def visibleReachable : SceneNode → List SceneNode
  | .mk d cs =>
      if d.visible && !d.locked then .mk d cs :: visibleReachableList cs
      else []

/-- `visibleReachable` over a forest. -/
def visibleReachableList : NodeList → List SceneNode
  | .nil => []
  | .cons c cs => visibleReachable c ++ visibleReachableList cs
end

/-- The matching child under the throwing parent. -/
def nodeC4C : SceneNode := .mk (fillData "C" "C" "RECTANGLE" ⟨"VX"⟩) .nil

/-- A parent whose property inspection throws; its children list is
accessible (`childrenThrow = false`). -/
def nodeC4P : SceneNode :=
  .mk { plainData "P" "P" "FRAME" with propsThrow := true }
    (.cons nodeC4C .nil)

/-- The matching sibling of the throwing parent. -/
def nodeC4S : SceneNode := .mk (fillData "S" "S" "RECTANGLE" ⟨"VX"⟩) .nil

/-! ## C6: visibility/lock pruning -/
/-- The matching (visible) instance nested under an invisible frame. -/
def nodeC6I : SceneNode := .mk (fillData "I" "I" "INSTANCE" ⟨"VX"⟩) .nil

/-- An invisible frame containing the instance. -/
def nodeC6F : SceneNode :=
  .mk { plainData "F" "F" "FRAME" with visible := false }
    (.cons nodeC6I .nil)

/-- A direct-mode configuration over the fixture environment. -/
def cfgD : SearchConfig :=
  { env := envX, variableDef := varX, instancesOnly := false
    cbs := noCallbacks, totalNodes := 2 }

/-! ## C2 and C10: representative deduplication -/
/-- A rectangle with a matching fill. -/
def matchRect (i : String) : SceneNode := .mk (fillData i i "RECTANGLE" ⟨"VX"⟩) .nil

/-- First instance named "Card", two matching descendants `Ra`, `Rb`. -/
def c2I1 : SceneNode :=
  .mk (plainData "I1" "Card" "INSTANCE")
    (.cons (matchRect "Ra") (.cons (matchRect "Rb") .nil))

/-- Second, distinct instance also named "Card", two matching descendants
`Rc`, `Rd`. -/
def c2I2 : SceneNode :=
  .mk (plainData "I2" "Card" "INSTANCE")
    (.cons (matchRect "Rc") (.cons (matchRect "Rd") .nil))

/-- Whether a node's own inspection (on the fresh resolver state) yields a
non-empty matched-property list. -/
def selfMatches (m : SceneNode) : Bool :=
  decide (0 < (inspectProperties envX varX.key m.data
    (initialResolverState varX)).1.length)

/-! ## C8: progress cadence -/
/-- Callbacks with only `onProgress` supplied. -/
def cbsProg : Callbacks :=
  { hasOnProgress := true, hasOnStreamingResult := false
    hasShouldCancel := false, shouldCancel := fun _ => false }

/-- A three-node direct-mode document: `N1`, `N2` plain, `N3` matching. -/
def docC8 : Document :=
  onePage (.cons (.mk (plainData "N1" "N1" "RECTANGLE") .nil)
    (.cons (.mk (plainData "N2" "N2" "RECTANGLE") .nil)
      (.cons (.mk (fillData "N3" "N3" "RECTANGLE" ⟨"VX"⟩) .nil) .nil)))

/-- The names of the recorded result list, in order. -/
def recordedNames (s : SearchState) : List String :=
  s.boundNodes.map (fun r => r.node.data.nname)

/-- The deduplication invariant of an in-flight representative-only search:
the recorded names are exactly the seen-set (in reverse insertion order),
the seen-set has no duplicates, and every record names an `INSTANCE` with a
non-empty matched-property list. -/
def DedupInv (s : SearchState) : Prop :=
  recordedNames s = s.processedInstanceNames.reverse
  ∧ s.processedInstanceNames.Nodup
  ∧ (∀ r ∈ s.boundNodes, r.node.data.ntype = "INSTANCE"
      ∧ r.boundProperties ≠ [])

/-- A state whose seen-set already holds the name "A". -/
def stSeen : SearchState :=
  { initialSearchState varX with processedInstanceNames := ["A"] }

/-- First instance named "Chip" with one matching descendant. -/
def c10I1 : SceneNode :=
  .mk (plainData "J1" "Chip" "INSTANCE") (.cons (matchRect "Sa") .nil)

/-- A distinct instance, same name "Chip", one matching descendant. -/
def c10I2 : SceneNode :=
  .mk (plainData "J2" "Chip" "INSTANCE") (.cons (matchRect "Sb") .nil)

/-! ## C9: determinism across consecutive searches -/
/-- Two back-to-back search invocations on the same (unmutated) document
with the same arguments. -/
def twoConsecutiveSearches (doc : Document) (env : String → LookupResult)
    (v : VariableDef) (io : Bool) (pageId : Option String)
    (cbs : Callbacks) : SearchResult × SearchResult :=
  (findNodesWithBoundVariable doc env v io pageId cbs,
   findNodesWithBoundVariable doc env v io pageId cbs)

/-- Two back-to-back summary computations. -/
def twoConsecutiveSummaries (doc : Document) (env : String → LookupResult)
    (v : VariableDef) (io : Bool) (pageId : Option String) :
    UsageSummary × UsageSummary :=
  (getVariableUsageSummary doc env v io pageId,
   getVariableUsageSummary doc env v io pageId)

/-- Callbacks that request cancellation at the second poll. -/
def cbsCancel : Callbacks :=
  { hasOnProgress := false, hasOnStreamingResult := false
    hasShouldCancel := true, shouldCancel := fun k => decide (1 ≤ k) }

/-! ## C8: progress events -/
/-- Invariant of the progress-event stream: reported visited values are
monotonically non-decreasing along the list, and every reported value is
capped by the current visited counter (and the total). -/
def EventInv (total : Nat) (s : SearchState) : Prop :=
  List.Pairwise (fun a b => a ≤ b)
    (s.progressEvents.map (fun e => e.current))
  ∧ ∀ e ∈ s.progressEvents, e.current ≤ min s.nodesProcessed total

/-- The nodes of the searched scope lying on all-visible, all-unlocked
paths from the page roots. -/
def visibleScope (doc : Document) (pageId : Option String) :
    List SceneNode :=
  ((searchedPages doc pageId).map
    (fun p => if p.ptype == "PAGE" then visibleReachableList p.children
      else [])).flatten

/-- All nodes of the searched scope. -/
def scopeNodes (doc : Document) (pageId : Option String) :
    List SceneNode :=
  ((searchedPages doc pageId).map
    (fun p => if p.ptype == "PAGE" then subtreeNodesList p.children
      else [])).flatten

/-- The counterexample document for C6, searched in direct mode: the
invisible frame `F` (with its matching instance child `I`) next to a
matching sibling `S6`. -/
def docC6W : Document :=
  onePage (.cons nodeC6F (.cons (matchRect "S6") .nil))

theorem lookupAssoc_mem {β : Type} (l : List (String × β)) (k : String)
    (v : β) (h : lookupAssoc l k = some v) : (k, v) ∈ l := by
  induction l with
  | nil => simp [lookupAssoc] at h
  | cons e rest ih =>
      rw [lookupAssoc] at h
      by_cases he : (e.1 == k) = true
      · rw [if_pos he] at h
        have h1 : e.1 = k := eq_of_beq he
        have h2 : e = (k, v) := by
          cases e
          simp only [Option.some.injEq] at h
          simp_all
        rw [h2] at *
        exact List.mem_cons_self _ _
      · rw [if_neg he] at h
        exact List.mem_cons_of_mem _ (ih h)

theorem resolverConsistent_initial (env : String → LookupResult)
    (v : VariableDef) :
    ResolverConsistent env v.id v.key (initialResolverState v) = true := by
  simp [ResolverConsistent, initialResolverState, List.contains]

/-- The heart of the corrected C1: on any consistent state, provided the
queried key is non-empty, `isMatchingVariable` answers exactly "ids match or
resolved keys match", and consistency is preserved. -/
theorem isMatchingVariable_eq_spec (env : String → LookupResult)
    (v : VariableDef) (s : ResolverState) (a : VarAlias)
    (hk : v.key ≠ "")
    (hs : ResolverConsistent env v.id v.key s = true) :
    (isMatchingVariable env v.key s a).1
        = (a.id == v.id || resolvedKeyMatches env a.id v.key)
    ∧ ResolverConsistent env v.id v.key
        (isMatchingVariable env v.key s a).2 = true := by
  have hs' := hs
  simp only [ResolverConsistent, Bool.and_eq_true] at hs'
  obtain ⟨⟨⟨hc1, hc2⟩, hc3⟩, hc4⟩ := hs'
  rw [isMatchingVariable]
  by_cases h1 : s.targetVariableIds.contains a.id = true
  · -- fast path
    rw [if_pos h1]
    have hmem : a.id ∈ s.targetVariableIds := List.elem_iff.mp h1
    have := List.all_eq_true.mp hc2 a.id hmem
    refine ⟨?_, hs⟩
    simp only [Bool.or_eq_true] at this
    rcases this with h | h
    · rw [eq_of_beq h] at *
      simp
    · simp [h]
  · rw [if_neg h1]
    -- a.id differs from the target id
    have hne : (a.id == v.id) = false := by
      rw [beq_eq_false_iff_ne]
      intro hcontra
      rw [hcontra] at h1
      exact h1 hc1
    rw [hne, Bool.false_or]
    rcases h2 : lookupAssoc s.variableKeyCache a.id with _ | k
    · rcases h3 : lookupAssoc s.variableCache a.id with _ | w
      · -- both caches miss: one environment lookup
        rcases h4 : env a.id with w' | _ | _
        · -- found
          refine ⟨by simp [resolvedKeyMatches, h4], ?_⟩
          by_cases h5 : (w'.key == v.key) = true
          · simp only [h5, if_true]
            simp only [ResolverConsistent, Bool.and_eq_true, List.all_cons,
              List.contains_cons, Bool.or_eq_true]
            refine ⟨⟨⟨Or.inr hc1, ?_, hc2⟩, ?_, hc3⟩, ?_, hc4⟩
            · simp [resolvedKeyMatches, h4, h5]
            · simp [h4, h5]
            · simp [h4]
          · simp only [if_neg h5]
            simp only [ResolverConsistent, Bool.and_eq_true, List.all_cons]
            refine ⟨⟨⟨hc1, hc2⟩, ?_, hc3⟩, ?_, hc4⟩
            · simp [h4]
            · simp [h4]
        · -- notFound
          refine ⟨by simp [resolvedKeyMatches, h4], ?_⟩
          simp only [ResolverConsistent, Bool.and_eq_true, List.all_cons]
          refine ⟨⟨⟨hc1, hc2⟩, ?_, hc3⟩, hc4⟩
          simp [h4]
        · -- throws
          refine ⟨by simp [resolvedKeyMatches, h4], ?_⟩
          simp only [ResolverConsistent, Bool.and_eq_true, List.all_cons]
          refine ⟨⟨⟨hc1, hc2⟩, ?_, hc3⟩, hc4⟩
          simp [h4]
      · -- variable-object cache hit
        have hwmem := lookupAssoc_mem _ _ _ h3
        have hw := List.all_eq_true.mp hc4 _ hwmem
        simp only [Bool.or_eq_true, Bool.and_eq_true] at hw
        rcases hw with ⟨hid, _⟩ | hfound
        · exact absurd (eq_of_beq hid) (beq_eq_false_iff_ne.mp hne)
        · have henv : env a.id = .found w := by
            rcases h4 : env a.id with w' | _ | _ <;> rw [h4] at hfound
            · rw [eq_of_beq hfound]
            · simp at hfound
            · simp at hfound
          refine ⟨by simp [resolvedKeyMatches, henv], ?_⟩
          by_cases h5 : (w.key == v.key) = true
          · simp only [h5, if_true]
            simp only [ResolverConsistent, Bool.and_eq_true, List.all_cons,
              List.contains_cons, Bool.or_eq_true]
            refine ⟨⟨⟨Or.inr hc1, ?_, hc2⟩, ?_, hc3⟩, hc4⟩
            · simp [resolvedKeyMatches, henv, h5]
            · simp [henv]
          · simp only [if_neg h5]
            simp only [ResolverConsistent, Bool.and_eq_true, List.all_cons]
            exact ⟨⟨⟨hc1, hc2⟩, by simp [henv], hc3⟩, hc4⟩
    · -- key cache hit
      have hkmem := lookupAssoc_mem _ _ _ h2
      have hkc := List.all_eq_true.mp hc3 _ hkmem
      simp only [Bool.or_eq_true, Bool.and_eq_true] at hkc
      refine ⟨?_, hs⟩
      rcases hkc with ⟨hid, _⟩ | hrest
      · exact absurd (eq_of_beq hid) (beq_eq_false_iff_ne.mp hne)
      · rcases h4 : env a.id with w' | _ | _ <;> rw [h4] at hrest
        · simp only at hrest
          rw [eq_of_beq hrest]
          simp [resolvedKeyMatches, h4]
        · simp only at hrest
          rw [eq_of_beq hrest]
          simp [resolvedKeyMatches, h4]
          exact fun hcontra => hk hcontra.symm
        · simp only at hrest
          rw [eq_of_beq hrest]
          simp [resolvedKeyMatches, h4]
          exact fun hcontra => hk hcontra.symm

/-- C1 (amended): for every candidate alias checked during a search — i.e.
on any cache state that is consistent with the environment, as the seeded
initial state is and as every check preserves — `isMatchingVariable`
returns true iff the alias's id equals the definition's id or the key
obtained by resolving the alias's id equals the definition's key, PROVIDED
the definition's key is non-empty (the cached failure sentinel is the empty
string, so an empty target key makes a previously failed id compare
equal). -/
theorem c1_keyEquivalence (env : String → LookupResult) (v : VariableDef)
    (s : ResolverState) (a : VarAlias)
    (hk : v.key ≠ "")
    (hs : ResolverConsistent env v.id v.key s = true) :
    ResolverConsistent env v.id v.key (initialResolverState v) = true
    ∧ (isMatchingVariable env v.key s a).1
        = (a.id == v.id || resolvedKeyMatches env a.id v.key)
    ∧ ResolverConsistent env v.id v.key
        (isMatchingVariable env v.key s a).2 = true :=
  ⟨resolverConsistent_initial env v,
   (isMatchingVariable_eq_spec env v s a hk hs).1,
   (isMatchingVariable_eq_spec env v s a hk hs).2⟩

/-- C1 witness: the amended claim evaluated on the seeded initial state and
a foreign alias id. -/
theorem c1_keyEquivalence_witness :
    (isMatchingVariable envX varX.key (initialResolverState varX) ⟨"other"⟩).1
      = (("other" == varX.id) || resolvedKeyMatches envX "other" varX.key) :=
  (c1_keyEquivalence envX varX (initialResolverState varX) ⟨"other"⟩
      (by decide) (by rfl)).2.1

/-- C1 counterexample: with an empty definition key, the first check of an
alias whose resolution throws returns false, but the second check of the
same alias returns TRUE — although its id differs from the definition's id
and resolving it yields no key — because the cached empty failure sentinel
compares equal to the empty target key. So "true iff ids match or resolved
keys match" does not hold for every candidate checked during a search. -/
theorem c1_keyEquivalence_counterexample :
    (isMatchingVariable envThrowsAll varE.key
        (initialResolverState varE) ⟨"x"⟩).1 = false
    ∧ (isMatchingVariable envThrowsAll varE.key
        ((isMatchingVariable envThrowsAll varE.key
          (initialResolverState varE) ⟨"x"⟩).2) ⟨"x"⟩).1 = true
    ∧ ("x" == varE.id) = false
    ∧ resolvedKeyMatches envThrowsAll "x" varE.key = false :=
  ⟨rfl, rfl, rfl, rfl⟩

/-- C5 (amended): when resolving an uncached alias id fails (the lookup
throws or returns nothing), the check returns non-equivalent and performs
exactly one lookup; every later check of the same id reuses the cached
sentinel without touching the environment and — with a non-empty target
key — again returns non-equivalent, leaving the state entirely unchanged.
The search is never aborted (the catch converts the throw into `false`). -/
theorem resolutionFailure_cached (env : String → LookupResult) (vk : String)
    (s : ResolverState) (a : VarAlias)
    (hk : vk ≠ "")
    (hfast : s.targetVariableIds.contains a.id = false)
    (hkc : lookupAssoc s.variableKeyCache a.id = none)
    (hvc : lookupAssoc s.variableCache a.id = none)
    (hfail : resolutionFails env a.id = true) :
    (isMatchingVariable env vk s a).1 = false
    ∧ (isMatchingVariable env vk s a).2.lookupLog = s.lookupLog ++ [a.id]
    ∧ isMatchingVariable env vk (isMatchingVariable env vk s a).2 a
        = (false, (isMatchingVariable env vk s a).2) := by
  have hvk : ("" == vk) = false := beq_eq_false_iff_ne.mpr (Ne.symm hk)
  have hnm : a.id ∉ s.targetVariableIds := by
    intro hm
    have hel : s.targetVariableIds.contains a.id = true := List.elem_iff.mpr hm
    rw [hfast] at hel
    exact Bool.false_ne_true hel
  rcases h4 : env a.id with w | _ | _
  · rw [resolutionFails] at hfail
    rw [h4] at hfail
    simp at hfail
  · refine ⟨?_, ?_, ?_⟩ <;>
      simp [isMatchingVariable, hfast, hnm, hkc, hvc, h4, hvk, lookupAssoc]
  · refine ⟨?_, ?_, ?_⟩ <;>
      simp [isMatchingVariable, hfast, hnm, hkc, hvc, h4, hvk, lookupAssoc]

/-- C5 witness: a fresh search state, an alias whose lookup returns
nothing. -/
theorem resolutionFailure_cached_witness :
    (isMatchingVariable (fun _ => .notFound) varX.key
        (initialResolverState varX) ⟨"zz"⟩).1 = false :=
  (resolutionFailure_cached (fun _ => .notFound) varX.key
      (initialResolverState varX) ⟨"zz"⟩
      (by decide) (by rfl) (by rfl) (by rfl) (by rfl)).1

/-- C5 counterexample: with an empty definition key, an id whose resolution
failed (and was cached as the empty sentinel) is reported EQUIVALENT on
every later check — the cached failure is not "treated as non-equivalent"
— even though no new resolution is attempted (the lookup log does not
grow). -/
theorem resolutionFailure_cached_counterexample :
    (isMatchingVariable envNullAll varN.key
        (initialResolverState varN) ⟨"y"⟩).1 = false
    ∧ (isMatchingVariable envNullAll varN.key
        ((isMatchingVariable envNullAll varN.key
          (initialResolverState varN) ⟨"y"⟩).2) ⟨"y"⟩).1 = true
    ∧ (isMatchingVariable envNullAll varN.key
        ((isMatchingVariable envNullAll varN.key
          (initialResolverState varN) ⟨"y"⟩).2) ⟨"y"⟩).2.lookupLog
      = ((isMatchingVariable envNullAll varN.key
          (initialResolverState varN) ⟨"y"⟩).2).lookupLog :=
  ⟨rfl, rfl, rfl⟩

theorem findTopLevelInstanceLoop_eq (l : List SceneNode)
    (top : Option (SceneNode × List SceneNode)) :
    (findTopLevelInstanceLoop top l).map Prod.fst
      = (match outermostInstance l with
         | some t => some t
         | none => top.map Prod.fst) := by
  induction l generalizing top with
  | nil => rfl
  | cons x xs ih =>
      rw [findTopLevelInstanceLoop, ih, outermostInstance]
      cases h : outermostInstance xs with
      | some t => rfl
      | none => cases hx : x.data.ntype == "INSTANCE" <;> rfl

/-- C3 (amended): the representative recorded for a match is the OUTERMOST
(top-level) `INSTANCE` on the chain from the matching node up to the page
(the node itself included) — not the nearest enclosing one — and when the
chain carries no `INSTANCE` at all the match is dropped (`recordMatch`
leaves the state untouched). -/
theorem findTopLevelInstance_outermost (node : SceneNode)
    (anc : List SceneNode) :
    (findTopLevelInstance node anc).map Prod.fst
      = outermostInstance (node :: anc)
    ∧ (∀ (cfg : SearchConfig) (pageName : String) (props : List String)
        (s : SearchState),
        cfg.instancesOnly = true →
        findTopLevelInstance node anc = none →
        recordMatch cfg node anc pageName props s = s) := by
  constructor
  · rw [findTopLevelInstance, findTopLevelInstanceLoop_eq]
    cases h : outermostInstance (node :: anc) <;> rfl
  · intro cfg pageName props s hio hnone
    simp [recordMatch, hio, hnone]

/-- C3 witness: a match on a chain with no instance at all is dropped. -/
theorem findTopLevelInstance_outermost_witness :
    recordMatch cfgW (SceneNode.mk (plainData "w" "W" "RECTANGLE") .nil) []
      "Page" ["width"] (initialSearchState varX) = initialSearchState varX :=
  (findTopLevelInstance_outermost
      (SceneNode.mk (plainData "w" "W" "RECTANGLE") .nil) []).2
    cfgW "Page" ["width"] (initialSearchState varX) rfl rfl

/-- C3 counterexample: for a match inside nested instances the nearest
enclosing `INSTANCE` ancestor of the matching node is `B`, but the search
records the OUTERMOST instance `A` (and only `A`), so "the representative
recorded for the match is the nearest enclosing representative container"
is false on the code. -/
theorem representative_outermost_counterexample :
    ((findNodesWithBoundVariable (onePage (.cons nodeA3 .nil)) envX varX
        true none noCallbacks).boundNodes.map (fun r => r.node.data.id))
      = ["A"]
    ∧ (((nodeR3 :: [nodeB3, nodeA3]).filter
          (fun m => m.data.ntype == "INSTANCE")).head?).map
        (fun m => m.data.id) = some "B"
    ∧ (findTopLevelInstance nodeR3 [nodeB3, nodeA3]).map
        (fun ti => ti.1.data.id) = some "A" :=
  ⟨rfl, rfl, rfl⟩

/-- Joint structural induction over `SceneNode` and `NodeList`. -/
theorem node_mutual_ind (P : SceneNode → Prop) (Q : NodeList → Prop)
    (hmk : ∀ d cs, Q cs → P (.mk d cs))
    (hnil : Q .nil)
    (hcons : ∀ c cs, P c → Q cs → Q (.cons c cs)) :
    (∀ n, P n) ∧ (∀ cs, Q cs) :=
  ⟨fun n => @SceneNode.rec P Q hmk hnil hcons n,
   fun cs => @NodeList.rec P Q hmk hnil hcons cs⟩

/-! ## C4: failure isolation for a throwing property inspection -/
/-- C4 (amended): a node whose property inspection throws contributes zero
matches (records, resolver state and stream events are untouched) and the
exception is not raised: `checkNode` returns `shouldContinue = true`, so the
sibling loop goes on to the remaining children exactly as if the node had
not matched. The node's children, however, are NOT evaluated (the whole
subtree is skipped even when the children list is accessible); only an
exception confined to `componentProperties` is caught by the nested handler,
in which case the node's other matches and the descent into its children
are unaffected (the inspection result does not depend on the component
properties at all). -/
theorem propsThrow_isolated (cfg : SearchConfig) (pageName : String)
    (anc : List SceneNode) (d : NodeData) (children : NodeList)
    (s : SearchState)
    (hnc : (cfg.cbs.hasShouldCancel &&
            cfg.cbs.shouldCancel s.nodesProcessed) = false)
    (hv : d.visible = true) (hl : d.locked = false)
    (hpt : d.propsThrow = true) :
    (checkNode cfg pageName anc (SceneNode.mk d children) s).1 = true
    ∧ (checkNode cfg pageName anc (SceneNode.mk d children) s).2.boundNodes
        = s.boundNodes
    ∧ (checkNode cfg pageName anc (SceneNode.mk d children) s).2.resolver
        = s.resolver
    ∧ (checkNode cfg pageName anc (SceneNode.mk d children) s).2.streamEvents
        = s.streamEvents
    ∧ (∀ cs, checkChildren cfg pageName anc
          (.cons (SceneNode.mk d children) cs) s
        = checkChildren cfg pageName anc cs
            (checkNode cfg pageName anc (SceneNode.mk d children) s).2)
    ∧ (∀ d2 : NodeData, d2.compPropsThrow = true →
        inspectProperties cfg.env cfg.variableDef.key d2 s.resolver
          = inspectProperties cfg.env cfg.variableDef.key
              { d2 with compProps := [] } s.resolver) := by
  have hbody : (checkNode cfg pageName anc (SceneNode.mk d children) s).1 = true
      ∧ (checkNode cfg pageName anc (SceneNode.mk d children) s).2.boundNodes
          = s.boundNodes
      ∧ (checkNode cfg pageName anc (SceneNode.mk d children) s).2.resolver
          = s.resolver
      ∧ (checkNode cfg pageName anc (SceneNode.mk d children) s).2.streamEvents
          = s.streamEvents := by
    rw [checkNode]
    rw [hnc]
    simp only [Bool.false_eq_true, if_false, hv, hl, hpt]
    by_cases hp : progressCondition cfg (s.nodesProcessed + 1) = true
    · simp [hp]
    · simp [hp]
  refine ⟨hbody.1, hbody.2.1, hbody.2.2.1, hbody.2.2.2, ?_, ?_⟩
  · intro cs
    rw [checkChildren]
    rw [if_pos hbody.1]
  · intro d2 h2
    simp only [inspectProperties, h2]
    rfl

/-- C4 counterexample: the throwing node `P` has an accessible children list
containing the matching node `C`, yet the search reports only the sibling
`S` — the claim that the children are still evaluated whenever the children
list is accessible is false on the code (the catch sits around the whole
node body, so the subtree is skipped). -/
theorem propsThrow_counterexample :
    ((findNodesWithBoundVariable
        (onePage (.cons nodeC4P (.cons nodeC4S .nil))) envX varX false none
        noCallbacks).boundNodes.map (fun r => r.node.data.id)) = ["S"]
    ∧ nodeC4P.data.propsThrow = true
    ∧ nodeC4P.data.childrenThrow = false
    ∧ (inspectProperties envX varX.key nodeC4C.data
        (initialResolverState varX)).1 = ["fills[0].color"] :=
  ⟨rfl, rfl, rfl, rfl⟩

/-- C6 counterexample: in representative-only mode the instance pre-scan
descends through the invisible frame `F` without checking visibility, so
the visible instance `I` — a descendant of an invisible node — IS reported,
refuting "that node and every descendant of that node are absent from the
result list". -/
theorem invisible_subtree_counterexample :
    ((findNodesWithBoundVariable (onePage (.cons nodeC6F .nil)) envX varX
        true none noCallbacks).boundNodes.map (fun r => r.node.data.id))
      = ["I"]
    ∧ nodeC6F.data.visible = false
    ∧ nodeC6I ∈ subtreeNodes nodeC6F :=
  ⟨rfl, rfl, List.Mem.tail _ (List.Mem.head _)⟩

/-- C4 witness: the throwing parent of the counterexample document, on the
fresh search state. -/
theorem propsThrow_isolated_witness :
    (checkNode cfgD "Page 1" []
      (SceneNode.mk { plainData "P" "P" "FRAME" with propsThrow := true }
        (.cons nodeC4C .nil)) (initialSearchState varX)).1 = true :=
  (propsThrow_isolated cfgD "Page 1" []
    { plainData "P" "P" "FRAME" with propsThrow := true }
    (.cons nodeC4C .nil) (initialSearchState varX) rfl rfl rfl rfl).1

/-- C2 counterexample: `I2` is a representative container (INSTANCE) with
two distinct matching descendants (`Rc`, `Rd`), yet the result list contains
NO record for it: the per-search seen-set is keyed by instance name, and the
same-named `I1` was recorded first. So "the result list contains exactly one
record for that container" fails. -/
theorem instancesOnly_collapse_counterexample :
    ((findNodesWithBoundVariable (onePage (.cons c2I1 (.cons c2I2 .nil)))
        envX varX true none noCallbacks).boundNodes.map
      (fun r => (r.node.data.id, r.node.data.nname, r.boundProperties)))
      = [("I1", "Card", ["fills[0].color"])]
    ∧ ((subtreeNodes c2I2).filter selfMatches).map (fun m => m.data.id)
        = ["Rc", "Rd"]
    ∧ c2I2.data.ntype = "INSTANCE" :=
  ⟨rfl, rfl, rfl⟩

/-- C8 counterexample: with three visits the claim predicts progress events
exactly at the first visit (1) and the last visit (3). The code also emits
an event with `visited = 0` before any visit, and a second event for
`visited = 3` after the loop (so the "last visit" value is reported twice,
first with 0 matches then with 1). Events are therefore NOT emitted exactly
at every 10th/first/last visit. -/
theorem progress_cadence_counterexample :
    (findNodesWithBoundVariable docC8 envX varX false none
        cbsProg).progressEvents
      = [⟨0, 3, 0⟩, ⟨1, 3, 0⟩, ⟨3, 3, 0⟩, ⟨3, 3, 1⟩]
    ∧ (findNodesWithBoundVariable docC8 envX varX false none
        cbsProg).cancelled = false
    ∧ (findNodesWithBoundVariable docC8 envX varX false none
        cbsProg).nodesProcessed = 3 :=
  ⟨rfl, rfl, rfl⟩

/-- `contains = false` is non-membership (strings, lawful `==`). -/
theorem contains_eq_false_iff (l : List String) (x : String) :
    l.contains x = false ↔ x ∉ l := by
  constructor
  · intro h hm
    have hel : l.contains x = true := List.elem_iff.mpr hm
    rw [h] at hel
    exact Bool.false_ne_true hel
  · intro h
    cases hc : l.contains x
    · rfl
    · have : x ∈ l := List.elem_iff.mp hc
      exact absurd this h

theorem findTopLevelInstanceLoop_instance (l : List SceneNode) :
    ∀ (top : Option (SceneNode × List SceneNode)),
      (∀ p, top = some p → p.1.data.ntype = "INSTANCE") →
      ∀ p, findTopLevelInstanceLoop top l = some p →
        p.1.data.ntype = "INSTANCE" := by
  induction l with
  | nil =>
      intro top htop p hp
      exact htop p hp
  | cons x xs ih =>
      intro top htop p hp
      rw [findTopLevelInstanceLoop] at hp
      refine ih _ ?_ p hp
      intro q hq
      by_cases hx : (x.data.ntype == "INSTANCE") = true
      · rw [if_pos hx] at hq
        injection hq with h2
        rw [← h2]
        exact eq_of_beq hx
      · rw [if_neg hx] at hq
        exact htop q hq

/-- The representative the deduplicator climbs to is always an instance. -/
theorem findTopLevelInstance_isInstance (node : SceneNode)
    (anc : List SceneNode) (p : SceneNode × List SceneNode)
    (h : findTopLevelInstance node anc = some p) :
    p.1.data.ntype = "INSTANCE" :=
  findTopLevelInstanceLoop_instance (node :: anc) none (by intro q hq; cases hq) p h

/-- `recordMatch` preserves the deduplication invariant in
representative-only mode. -/
theorem recordMatch_dedupInv (cfg : SearchConfig) (node : SceneNode)
    (anc : List SceneNode) (pg : String) (props : List String)
    (s : SearchState) (hio : cfg.instancesOnly = true) (h : DedupInv s) :
    DedupInv (recordMatch cfg node anc pg props s) := by
  rw [recordMatch, hio]
  by_cases hp : props.length > 0
  · rw [if_pos hp]
    simp only [if_true]
    rcases hti : findTopLevelInstance node anc with _ | ti
    · exact h
    · dsimp only
      by_cases hseen :
        (s.processedInstanceNames.contains ti.1.data.nname) = true
      · rw [if_pos hseen]
        exact h
      · rw [if_neg hseen]
        have hnotmem : ti.1.data.nname ∉ s.processedInstanceNames :=
          (contains_eq_false_iff _ _).mp (Bool.eq_false_iff.mpr hseen)
        obtain ⟨h1, h2, h3⟩ := h
        have hinst := findTopLevelInstance_isInstance node anc ti hti
        have hpne : props ≠ [] := by
          intro hc
          rw [hc] at hp
          simp at hp
        have hcore : DedupInv
            { s with
              processedInstanceNames :=
                ti.1.data.nname :: s.processedInstanceNames
              boundNodes := s.boundNodes ++
                [{ node := ti.1, boundProperties := props,
                   propertyPath := getNodePath ti.1 ti.2, pageName := pg }] } := by
          refine ⟨?_, ?_, ?_⟩
          · simp only [recordedNames, List.map_append, List.reverse_cons,
              List.map_cons, List.map_nil]
            rw [recordedNames] at h1
            rw [h1]
          · rw [List.nodup_cons]
            exact ⟨hnotmem, h2⟩
          · intro r hr
            rcases List.mem_append.mp hr with hr1 | hr2
            · exact h3 r hr1
            · rw [List.mem_singleton] at hr2
              rw [hr2]
              exact ⟨hinst, hpne⟩
        by_cases hstr : cfg.cbs.hasOnStreamingResult = true
        · rw [if_pos hstr]
          exact hcore
        · rw [if_neg hstr]
          exact hcore
  · rw [if_neg hp]
    exact h

/-- `checkNode` and `checkChildren` preserve the deduplication invariant in
representative-only mode. -/
theorem checkNode_dedupInv :
    (∀ n : SceneNode, ∀ (cfg : SearchConfig) (pg : String)
        (anc : List SceneNode) (s : SearchState),
      cfg.instancesOnly = true → DedupInv s →
      DedupInv (checkNode cfg pg anc n s).2)
    ∧ (∀ cs : NodeList, ∀ (cfg : SearchConfig) (pg : String)
        (anc : List SceneNode) (s : SearchState),
      cfg.instancesOnly = true → DedupInv s →
      DedupInv (checkChildren cfg pg anc cs s).2) := by
  refine node_mutual_ind _ _ ?_ ?_ ?_
  · intro d cs ihcs cfg pg anc s hio hinv
    rw [checkNode]
    by_cases hc : (cfg.cbs.hasShouldCancel &&
        cfg.cbs.shouldCancel s.nodesProcessed) = true
    · rw [if_pos hc]
      exact hinv
    · rw [if_neg hc]
      dsimp only
      split
      · split <;> exact hinv
      · split
        · split <;> exact hinv
        · split
          · split <;> exact hinv
          · split
            · split <;> exact recordMatch_dedupInv cfg _ anc pg _ _ hio hinv
            · refine ihcs cfg pg _ _ hio ?_
              split <;> exact recordMatch_dedupInv cfg _ anc pg _ _ hio hinv
  · intro cfg pg anc s hio hinv
    rw [checkChildren]
    exact hinv
  · intro c cs ihc ihcs cfg pg anc s hio hinv
    rw [checkChildren]
    split
    · exact ihcs cfg pg anc _ hio (ihc cfg pg anc s hio hinv)
    · exact ihc cfg pg anc s hio hinv

/-- The instance pre-scan preserves the deduplication invariant. -/
theorem findInstances_dedupInv :
    (∀ n : SceneNode, ∀ (cfg : SearchConfig) (pg : String)
        (anc : List SceneNode) (s : SearchState),
      cfg.instancesOnly = true → DedupInv s →
      DedupInv (findInstancesInNode cfg pg anc n s).2)
    ∧ (∀ cs : NodeList, ∀ (cfg : SearchConfig) (pg : String)
        (anc : List SceneNode) (s : SearchState),
      cfg.instancesOnly = true → DedupInv s →
      DedupInv (findInstancesInList cfg pg anc cs s).2) := by
  refine node_mutual_ind _ _ ?_ ?_ ?_
  · intro d cs ihcs cfg pg anc s hio hinv
    rw [findInstancesInNode]
    split
    · have hr := checkNode_dedupInv.1 (SceneNode.mk d cs) cfg pg anc s hio hinv
      split
      · exact ihcs cfg pg _ _ hio hr
      · exact hr
    · exact ihcs cfg pg _ _ hio hinv
  · intro cfg pg anc s hio hinv
    rw [findInstancesInList]
    exact hinv
  · intro c cs ihc ihcs cfg pg anc s hio hinv
    rw [findInstancesInList]
    split
    · exact ihcs cfg pg anc _ hio (ihc cfg pg anc s hio hinv)
    · exact ihc cfg pg anc s hio hinv

/-- The page loop preserves the deduplication invariant. -/
theorem runPages_dedupInv (cfg : SearchConfig)
    (hio : cfg.instancesOnly = true) :
    ∀ (ps : List Page) (s : SearchState) (c : Bool), DedupInv s →
      DedupInv (runPages cfg ps (s, c)).1 := by
  intro ps
  induction ps with
  | nil =>
      intro s c h
      rw [runPages]
      exact h
  | cons p rest ih =>
      intro s c h
      rw [runPages]
      by_cases hpc : (p.ptype == "PAGE" && !c) = true
      · rw [if_pos hpc]
        dsimp only
        rw [if_pos hio]
        exact ih _ _ (findInstances_dedupInv.2 p.children cfg
          (getNodePageName p) [] s hio h)
      · rw [if_neg hpc]
        exact ih s c h

theorem findNodes_boundNodes (doc : Document) (env : String → LookupResult)
    (v : VariableDef) (io : Bool) (pageId : Option String)
    (cbs : Callbacks) :
    (findNodesWithBoundVariable doc env v io pageId cbs).boundNodes
      = if scopeMissing doc pageId = true then []
        else (searchRun doc env v io pageId cbs).1.boundNodes := by
  rw [findNodesWithBoundVariable]
  by_cases h : scopeMissing doc pageId = true
  · rw [if_pos h, if_pos h]
  · rw [if_neg h, if_neg h]
    dsimp only
    split <;> rfl

theorem findNodes_streamEvents (doc : Document)
    (env : String → LookupResult) (v : VariableDef) (io : Bool)
    (pageId : Option String) (cbs : Callbacks) :
    (findNodesWithBoundVariable doc env v io pageId cbs).streamEvents
      = if scopeMissing doc pageId = true then []
        else (searchRun doc env v io pageId cbs).1.streamEvents := by
  rw [findNodesWithBoundVariable]
  by_cases h : scopeMissing doc pageId = true
  · rw [if_pos h, if_pos h]
  · rw [if_neg h, if_neg h]
    dsimp only
    split <;> rfl

theorem findNodes_nodesProcessed (doc : Document)
    (env : String → LookupResult) (v : VariableDef) (io : Bool)
    (pageId : Option String) (cbs : Callbacks) :
    (findNodesWithBoundVariable doc env v io pageId cbs).nodesProcessed
      = if scopeMissing doc pageId = true then 0
        else (searchRun doc env v io pageId cbs).1.nodesProcessed := by
  rw [findNodesWithBoundVariable]
  by_cases h : scopeMissing doc pageId = true
  · rw [if_pos h, if_pos h]
  · rw [if_neg h, if_neg h]
    dsimp only
    split <;> rfl

theorem findNodes_cancelled (doc : Document) (env : String → LookupResult)
    (v : VariableDef) (io : Bool) (pageId : Option String)
    (cbs : Callbacks) :
    (findNodesWithBoundVariable doc env v io pageId cbs).cancelled
      = if scopeMissing doc pageId = true then false
        else (searchRun doc env v io pageId cbs).2 := by
  rw [findNodesWithBoundVariable]
  by_cases h : scopeMissing doc pageId = true
  · rw [if_pos h, if_pos h]
  · rw [if_neg h, if_neg h]

theorem findNodes_totalNodes (doc : Document) (env : String → LookupResult)
    (v : VariableDef) (io : Bool) (pageId : Option String)
    (cbs : Callbacks) :
    (findNodesWithBoundVariable doc env v io pageId cbs).totalNodes
      = if scopeMissing doc pageId = true then 0
        else searchTotal doc io pageId := by
  rw [findNodesWithBoundVariable]
  by_cases h : scopeMissing doc pageId = true
  · rw [if_pos h, if_pos h]
  · rw [if_neg h, if_neg h]

theorem findNodes_progressEvents (doc : Document)
    (env : String → LookupResult) (v : VariableDef) (io : Bool)
    (pageId : Option String) (cbs : Callbacks) :
    (findNodesWithBoundVariable doc env v io pageId cbs).progressEvents
      = if scopeMissing doc pageId = true then []
        else if cbs.hasOnProgress && decide (0 < searchTotal doc io pageId)
            && !(searchRun doc env v io pageId cbs).2 then
          (searchRun doc env v io pageId cbs).1.progressEvents ++
            [{ current := searchTotal doc io pageId
               total := searchTotal doc io pageId
               nodesFound :=
                 (searchRun doc env v io pageId cbs).1.boundNodes.length }]
        else (searchRun doc env v io pageId cbs).1.progressEvents := by
  rw [findNodesWithBoundVariable]
  by_cases h : scopeMissing doc pageId = true
  · rw [if_pos h, if_pos h]
  · rw [if_neg h, if_neg h]
    dsimp only
    split <;> rfl

theorem searchStart_dedupInv (doc : Document) (v : VariableDef) (io : Bool)
    (pageId : Option String) (cbs : Callbacks) :
    DedupInv (searchStart doc v io pageId cbs) := by
  rw [searchStart]
  split
  · exact ⟨rfl, List.nodup_nil, fun r hr => absurd hr (List.not_mem_nil r)⟩
  · exact ⟨rfl, List.nodup_nil, fun r hr => absurd hr (List.not_mem_nil r)⟩

/-- The final record list of a representative-only search satisfies the
deduplication facts: pairwise-distinct representative names, every record an
instance with a non-empty property list. -/
theorem search_dedupFacts (doc : Document) (env : String → LookupResult)
    (v : VariableDef) (pageId : Option String) (cbs : Callbacks) :
    ((findNodesWithBoundVariable doc env v true pageId cbs).boundNodes.map
        (fun r => r.node.data.nname)).Nodup
    ∧ (∀ r ∈ (findNodesWithBoundVariable doc env v true pageId
          cbs).boundNodes,
        r.node.data.ntype = "INSTANCE" ∧ r.boundProperties ≠ []) := by
  have hrun : DedupInv (searchRun doc env v true pageId cbs).1 :=
    runPages_dedupInv _ rfl _ _ false (searchStart_dedupInv doc v true pageId cbs)
  rw [findNodes_boundNodes]
  by_cases h : scopeMissing doc pageId = true
  · rw [if_pos h]
    exact ⟨List.nodup_nil, fun r hr => absurd hr (List.not_mem_nil r)⟩
  · rw [if_neg h]
    obtain ⟨h1, h2, h3⟩ := hrun
    refine ⟨?_, h3⟩
    rw [recordedNames] at h1
    rw [h1]
    exact List.nodup_reverse.mpr h2

/-- C2 (amended): in representative-only mode the result list carries at
most one record per representative NAME (names are pairwise distinct), each
record names a representative (`INSTANCE`) — not the matching descendant —
with a non-empty matched-property list (the one of the first match mapped to
it), and a match whose representative's name is already in the per-search
seen-set changes nothing: the existing record is neither updated nor
extended. A representative container with two or more matching descendants
therefore yields exactly one record only when no earlier-traversed
representative shares its name; otherwise it yields none
(see the counterexample). -/
theorem instancesOnly_dedup_unique (doc : Document)
    (env : String → LookupResult) (v : VariableDef) (pageId : Option String)
    (cbs : Callbacks) :
    ((findNodesWithBoundVariable doc env v true pageId cbs).boundNodes.map
        (fun r => r.node.data.nname)).Nodup
    ∧ (∀ r ∈ (findNodesWithBoundVariable doc env v true pageId
          cbs).boundNodes,
        r.node.data.ntype = "INSTANCE" ∧ r.boundProperties ≠ [])
    ∧ (∀ (cfg : SearchConfig) (node : SceneNode) (anc : List SceneNode)
         (pg : String) (props : List String) (s : SearchState)
         (ti : SceneNode × List SceneNode),
        cfg.instancesOnly = true →
        findTopLevelInstance node anc = some ti →
        ti.1.data.nname ∈ s.processedInstanceNames →
        recordMatch cfg node anc pg props s = s) := by
  refine ⟨(search_dedupFacts doc env v pageId cbs).1,
          (search_dedupFacts doc env v pageId cbs).2, ?_⟩
  intro cfg node anc pg props s ti hio hti hmem
  rw [recordMatch, hio]
  have hcont : s.processedInstanceNames.contains ti.1.data.nname = true :=
    List.elem_iff.mpr hmem
  by_cases hp : props.length > 0
  · rw [if_pos hp, if_pos rfl, hti]
    dsimp only
    rw [if_pos hcont]
  · rw [if_neg hp]

/-- C2 witness: a later match mapping to the already-seen representative
`A` leaves the state untouched. -/
theorem instancesOnly_dedup_unique_witness :
    recordMatch cfgW nodeR3 [nodeB3, nodeA3] "Page 1" ["fills[0].color"]
      stSeen = stSeen :=
  (instancesOnly_dedup_unique (onePage .nil) envX varX none noCallbacks).2.2
    cfgW nodeR3 [nodeB3, nodeA3] "Page 1" ["fills[0].color"] stSeen
    (nodeA3, []) rfl rfl (List.Mem.head _)

theorem filter_beq_length_le_one {α : Type} (f : α → String) :
    ∀ l : List α, (l.map f).Nodup → ∀ nm : String,
      (l.filter (fun x => f x == nm)).length ≤ 1 := by
  intro l
  induction l with
  | nil =>
      intro _ nm
      simp
  | cons x xs ih =>
      intro h nm
      rw [List.map_cons, List.nodup_cons] at h
      obtain ⟨hx, hxs⟩ := h
      rw [List.filter_cons]
      by_cases hfx : (f x == nm) = true
      · rw [if_pos hfx]
        have hnil : xs.filter (fun y => f y == nm) = [] := by
          rw [List.filter_eq_nil_iff]
          intro y hy hpy
          apply hx
          rw [List.mem_map]
          refine ⟨y, hy, ?_⟩
          have h1 : f y = nm := eq_of_beq hpy
          have h2 : f x = nm := eq_of_beq hfx
          rw [h1, h2]
        rw [hnil]
        simp
      · rw [if_neg hfx]
        exact ih hxs nm

/-- C10: the per-search seen-set of representative-only deduplication is
keyed by the representative's NAME, not its id: at most one record is ever
produced per name, and for two distinct same-named containers with a
matching descendant each, only the container reached first in traversal
order (`J1`) is recorded while the second (`J2`) is absent. -/
theorem dedup_keyed_by_name (doc : Document) (env : String → LookupResult)
    (v : VariableDef) (pageId : Option String) (cbs : Callbacks) :
    (∀ nm : String,
      ((findNodesWithBoundVariable doc env v true pageId
          cbs).boundNodes.filter
        (fun r => r.node.data.nname == nm)).length ≤ 1)
    ∧ ((findNodesWithBoundVariable (onePage (.cons c10I1 (.cons c10I2 .nil)))
          envX varX true none noCallbacks).boundNodes.map
        (fun r => r.node.data.id)) = ["J1"]
    ∧ c10I1.data.nname = c10I2.data.nname
    ∧ c10I1.data.id ≠ c10I2.data.id := by
  refine ⟨?_, rfl, rfl, by decide⟩
  intro nm
  exact filter_beq_length_le_one _ _
    (search_dedupFacts doc env v pageId cbs).1 nm

/-- C9: two consecutive non-cancelled searches over a fixed document with
the same definition, mode and scope produce identical results (ordered
record lists included) and identical summaries. The freshness conjuncts
certify why: the state entering the page loop is built from the queried
variable alone — empty seen-set, empty records, zero counter, caches seeded
only with the target — never carried over from a previous invocation. -/
theorem consecutive_searches_deterministic (doc : Document)
    (env : String → LookupResult) (v : VariableDef) (io : Bool)
    (pageId : Option String) (cbs : Callbacks) :
    (twoConsecutiveSearches doc env v io pageId cbs).1
      = (twoConsecutiveSearches doc env v io pageId cbs).2
    ∧ (twoConsecutiveSummaries doc env v io pageId).1
      = (twoConsecutiveSummaries doc env v io pageId).2
    ∧ (searchStart doc v io pageId cbs).resolver = initialResolverState v
    ∧ (searchStart doc v io pageId cbs).processedInstanceNames = []
    ∧ (searchStart doc v io pageId cbs).boundNodes = []
    ∧ (searchStart doc v io pageId cbs).nodesProcessed = 0 := by
  refine ⟨rfl, rfl, ?_⟩
  rw [searchStart]
  split
  · exact ⟨rfl, rfl, rfl, rfl⟩
  · exact ⟨rfl, rfl, rfl, rfl⟩

/-! ## C7: cooperative cancellation -/
/-- `recordMatch` never touches the visited counter, the progress events or
the resolver caches. -/
theorem recordMatch_fields (cfg : SearchConfig) (node : SceneNode)
    (anc : List SceneNode) (pg : String) (props : List String)
    (s : SearchState) :
    (recordMatch cfg node anc pg props s).nodesProcessed = s.nodesProcessed
    ∧ (recordMatch cfg node anc pg props s).progressEvents
        = s.progressEvents
    ∧ (recordMatch cfg node anc pg props s).resolver = s.resolver := by
  rw [recordMatch]
  dsimp only
  repeat' split
  all_goals exact ⟨rfl, rfl, rfl⟩

/-- Visit-count bounds for the walker: a call adds at most `countNodes n`
to the visited counter, and a cancelled call (returning `false`) adds
strictly less — the node where the poll observed `true` is left
uncounted. -/
theorem checkNode_countBound :
    (∀ n : SceneNode, ∀ (cfg : SearchConfig) (pg : String)
        (anc : List SceneNode) (s : SearchState),
      (checkNode cfg pg anc n s).2.nodesProcessed
          ≤ s.nodesProcessed + countNodes n
      ∧ ((checkNode cfg pg anc n s).1 = false →
          (checkNode cfg pg anc n s).2.nodesProcessed + 1
            ≤ s.nodesProcessed + countNodes n))
    ∧ (∀ cs : NodeList, ∀ (cfg : SearchConfig) (pg : String)
        (anc : List SceneNode) (s : SearchState),
      (checkChildren cfg pg anc cs s).2.nodesProcessed
          ≤ s.nodesProcessed + countNodesList cs
      ∧ ((checkChildren cfg pg anc cs s).1 = false →
          (checkChildren cfg pg anc cs s).2.nodesProcessed + 1
            ≤ s.nodesProcessed + countNodesList cs)) := by
  refine node_mutual_ind _ _ ?_ ?_ ?_
  · intro d cs ihcs cfg pg anc s
    have hcount : countNodes (SceneNode.mk d cs) = 1 + countNodesList cs :=
      rfl
    have hstep : ∀ s4 : SearchState,
        s4.nodesProcessed = s.nodesProcessed + 1 →
        (checkChildren cfg pg (SceneNode.mk d cs :: anc) cs s4).2.nodesProcessed
            ≤ s.nodesProcessed + countNodes (SceneNode.mk d cs)
        ∧ ((checkChildren cfg pg (SceneNode.mk d cs :: anc) cs s4).1 = false →
            (checkChildren cfg pg (SceneNode.mk d cs :: anc) cs
                s4).2.nodesProcessed + 1
              ≤ s.nodesProcessed + countNodes (SceneNode.mk d cs)) := by
      intro s4 h4
      have hl := ihcs cfg pg (SceneNode.mk d cs :: anc) s4
      constructor
      · have h1 := hl.1
        rw [h4] at h1
        rw [hcount]
        omega
      · intro hfalse
        have h2 := hl.2 hfalse
        rw [h4] at h2
        rw [hcount]
        omega
    rw [checkNode]
    by_cases hc : (cfg.cbs.hasShouldCancel &&
        cfg.cbs.shouldCancel s.nodesProcessed) = true
    · rw [if_pos hc]
      constructor
      · exact Nat.le_add_right _ _
      · intro _
        rw [hcount]
        dsimp only
        omega
    · rw [if_neg hc]
      dsimp only
      split
      · constructor
        · split <;> (rw [hcount]; dsimp only; omega)
        · intro hfalse
          exact absurd hfalse (by simp)
      · split
        · constructor
          · split <;> (rw [hcount]; dsimp only; omega)
          · intro hfalse
            exact absurd hfalse (by simp)
        · split
          · constructor
            · split <;> (rw [hcount]; dsimp only; omega)
            · intro hfalse
              exact absurd hfalse (by simp)
          · split
            · constructor
              · split <;>
                  (rw [hcount]
                   rw [(recordMatch_fields _ _ _ _ _ _).1]
                   dsimp only
                   omega)
              · intro hfalse
                exact absurd hfalse (by simp)
            · split
              · exact hstep _ (by rw [(recordMatch_fields _ _ _ _ _ _).1])
              · exact hstep _ (by rw [(recordMatch_fields _ _ _ _ _ _).1])
  · intro cfg pg anc s
    rw [checkChildren]
    constructor
    · dsimp only
      rw [countNodesList]
      omega
    · intro hfalse
      exact absurd hfalse (by simp)
  · intro c cs ihc ihcs cfg pg anc s
    rw [checkChildren]
    have hcount : countNodesList (NodeList.cons c cs)
        = countNodes c + countNodesList cs := rfl
    by_cases h1 : (checkNode cfg pg anc c s).1 = true
    · rw [if_pos h1]
      have hc1 := (ihc cfg pg anc s).1
      have hl := ihcs cfg pg anc (checkNode cfg pg anc c s).2
      constructor
      · rw [hcount]
        omega
      · intro hfalse
        have := hl.2 hfalse
        rw [hcount]
        omega
    · rw [if_neg h1]
      have hc2 := (ihc cfg pg anc s).2 (Bool.eq_false_iff.mpr h1)
      constructor
      · rw [hcount]
        have hc1 := (ihc cfg pg anc s).1
        dsimp only
        omega
      · intro _
        rw [hcount]
        dsimp only
        omega

theorem findInstancesInNode_instance (cfg : SearchConfig) (pg : String)
    (anc : List SceneNode) (d : NodeData) (cs : NodeList) (s : SearchState)
    (h : (d.ntype == "INSTANCE") = true) :
    findInstancesInNode cfg pg anc (SceneNode.mk d cs) s
      = (if (checkNode cfg pg anc (SceneNode.mk d cs) s).1 = true then
          findInstancesInList cfg pg (SceneNode.mk d cs :: anc) cs
            (checkNode cfg pg anc (SceneNode.mk d cs) s).2
        else (false, (checkNode cfg pg anc (SceneNode.mk d cs) s).2)) := by
  rw [findInstancesInNode, h]
  rfl

theorem findInstancesInNode_nonInstance (cfg : SearchConfig) (pg : String)
    (anc : List SceneNode) (d : NodeData) (cs : NodeList) (s : SearchState)
    (h : (d.ntype == "INSTANCE") = false) :
    findInstancesInNode cfg pg anc (SceneNode.mk d cs) s
      = findInstancesInList cfg pg (SceneNode.mk d cs :: anc) cs s := by
  rw [findInstancesInNode, h]
  rfl

/-- Visit-count bounds for the instance pre-scan: at most
`countInstanceNodes n` visits are added (nested instances counted twice on
both sides), strictly fewer on cancellation. -/
theorem findInstances_countBound :
    (∀ n : SceneNode, ∀ (cfg : SearchConfig) (pg : String)
        (anc : List SceneNode) (s : SearchState),
      (findInstancesInNode cfg pg anc n s).2.nodesProcessed
          ≤ s.nodesProcessed + countInstanceNodes n
      ∧ ((findInstancesInNode cfg pg anc n s).1 = false →
          (findInstancesInNode cfg pg anc n s).2.nodesProcessed + 1
            ≤ s.nodesProcessed + countInstanceNodes n))
    ∧ (∀ cs : NodeList, ∀ (cfg : SearchConfig) (pg : String)
        (anc : List SceneNode) (s : SearchState),
      (findInstancesInList cfg pg anc cs s).2.nodesProcessed
          ≤ s.nodesProcessed + countInstanceNodesList cs
      ∧ ((findInstancesInList cfg pg anc cs s).1 = false →
          (findInstancesInList cfg pg anc cs s).2.nodesProcessed + 1
            ≤ s.nodesProcessed + countInstanceNodesList cs)) := by
  refine node_mutual_ind _ _ ?_ ?_ ?_
  · intro d cs ihcs cfg pg anc s
    by_cases hinst : (d.ntype == "INSTANCE") = true
    · rw [findInstancesInNode_instance cfg pg anc d cs s hinst]
      have hcb := checkNode_countBound.1 (SceneNode.mk d cs) cfg pg anc s
      have hcnt : countInstanceNodes (SceneNode.mk d cs)
          = countNodes (SceneNode.mk d cs) + countInstanceNodesList cs := by
        rw [countInstanceNodes, if_pos hinst]
      by_cases ht : (checkNode cfg pg anc (SceneNode.mk d cs) s).1 = true
      · rw [if_pos ht]
        have hl := ihcs cfg pg (SceneNode.mk d cs :: anc)
          (checkNode cfg pg anc (SceneNode.mk d cs) s).2
        constructor
        · rw [hcnt]
          have h1 := hcb.1
          have h2 := hl.1
          omega
        · intro hfalse
          have h3 := hl.2 hfalse
          have h1 := hcb.1
          rw [hcnt]
          omega
      · rw [if_neg ht]
        have h2 := hcb.2 (Bool.eq_false_iff.mpr ht)
        constructor
        · rw [hcnt]
          dsimp only
          omega
        · intro _
          rw [hcnt]
          dsimp only
          omega
    · rw [findInstancesInNode_nonInstance cfg pg anc d cs s
        (Bool.eq_false_iff.mpr hinst)]
      have hcnt : countInstanceNodes (SceneNode.mk d cs)
          = 0 + countInstanceNodesList cs := by
        rw [countInstanceNodes, if_neg hinst]
      have hl := ihcs cfg pg (SceneNode.mk d cs :: anc) s
      constructor
      · rw [hcnt]
        have := hl.1
        omega
      · intro hfalse
        have := hl.2 hfalse
        rw [hcnt]
        omega
  · intro cfg pg anc s
    rw [findInstancesInList]
    constructor
    · dsimp only
      rw [countInstanceNodesList]
      omega
    · intro hfalse
      exact absurd hfalse (by simp)
  · intro c cs ihc ihcs cfg pg anc s
    rw [findInstancesInList]
    have hcnt : countInstanceNodesList (NodeList.cons c cs)
        = countInstanceNodes c + countInstanceNodesList cs := rfl
    by_cases h1 : (findInstancesInNode cfg pg anc c s).1 = true
    · rw [if_pos h1]
      have hc1 := (ihc cfg pg anc s).1
      have hl := ihcs cfg pg anc (findInstancesInNode cfg pg anc c s).2
      constructor
      · rw [hcnt]
        have := hl.1
        omega
      · intro hfalse
        have := hl.2 hfalse
        rw [hcnt]
        omega
    · rw [if_neg h1]
      have hc2 := (ihc cfg pg anc s).2 (Bool.eq_false_iff.mpr h1)
      have hc1 := (ihc cfg pg anc s).1
      constructor
      · rw [hcnt]
        dsimp only
        omega
      · intro _
        rw [hcnt]
        dsimp only
        omega

/-- Once `cancelled` is observed, the page loop changes nothing. -/
theorem runPages_cancelled (cfg : SearchConfig) :
    ∀ (ps : List Page) (s : SearchState),
      runPages cfg ps (s, true) = (s, true) := by
  intro ps
  induction ps with
  | nil =>
      intro s
      rw [runPages]
  | cons p rest ih =>
      intro s
      rw [runPages]
      have hcond : (p.ptype == "PAGE" && !true) = false := by simp
      rw [hcond]
      exact ih s

/-- Visit-count bound for the whole page loop, started uncancelled. -/
theorem runPages_countBound (cfg : SearchConfig) :
    ∀ (ps : List Page) (s : SearchState),
      (runPages cfg ps (s, false)).1.nodesProcessed
          ≤ s.nodesProcessed + (ps.map (pageTotal cfg.instancesOnly)).sum
      ∧ ((runPages cfg ps (s, false)).2 = true →
          (runPages cfg ps (s, false)).1.nodesProcessed + 1
            ≤ s.nodesProcessed
              + (ps.map (pageTotal cfg.instancesOnly)).sum) := by
  intro ps
  induction ps with
  | nil =>
      intro s
      rw [runPages]
      constructor
      · dsimp only
        omega
      · intro hfalse
        exact absurd hfalse (by simp)
  | cons p rest ih =>
      intro s
      rw [runPages]
      have hsum : ((p :: rest).map (pageTotal cfg.instancesOnly)).sum
          = pageTotal cfg.instancesOnly p
            + (rest.map (pageTotal cfg.instancesOnly)).sum := by
        rw [List.map_cons, List.sum_cons]
      have hcont : ∀ (r : Bool × SearchState) (ctot : Nat),
          r.2.nodesProcessed ≤ s.nodesProcessed + ctot →
          (r.1 = false → r.2.nodesProcessed + 1 ≤ s.nodesProcessed + ctot) →
          ctot ≤ pageTotal cfg.instancesOnly p →
          (runPages cfg rest
              (r.2, if r.1 = true then false else true)).1.nodesProcessed
            ≤ s.nodesProcessed
              + ((p :: rest).map (pageTotal cfg.instancesOnly)).sum
          ∧ ((runPages cfg rest
                (r.2, if r.1 = true then false else true)).2 = true →
              (runPages cfg rest
                (r.2, if r.1 = true then false else true)).1.nodesProcessed
                  + 1
                ≤ s.nodesProcessed
                  + ((p :: rest).map (pageTotal cfg.instancesOnly)).sum) := by
        intro r ctot hb1 hb2 hle
        rw [hsum]
        by_cases hr : r.1 = true
        · rw [if_pos hr]
          have hi := ih r.2
          constructor
          · have := hi.1
            omega
          · intro h2
            have := hi.2 h2
            omega
        · rw [if_neg hr]
          rw [runPages_cancelled]
          have hb2x := hb2 (Bool.eq_false_iff.mpr hr)
          constructor
          · dsimp only
            omega
          · intro _
            dsimp only
            omega
      by_cases hpc : (p.ptype == "PAGE" && !false) = true
      · rw [if_pos hpc]
        dsimp only
        have hpage : (p.ptype == "PAGE") = true := by
          simpa using hpc
        by_cases him : cfg.instancesOnly = true
        · rw [if_pos him]
          have hpt : pageTotal cfg.instancesOnly p
              = countInstanceNodesList p.children := by
            rw [pageTotal, if_pos hpage, if_pos him]
          exact hcont _ (countInstanceNodesList p.children)
            (findInstances_countBound.2 p.children cfg
              (getNodePageName p) [] s).1
            (findInstances_countBound.2 p.children cfg
              (getNodePageName p) [] s).2
            (by rw [hpt])
        · rw [if_neg him]
          have hpt : pageTotal cfg.instancesOnly p
              = countNodesList p.children := by
            rw [pageTotal, if_pos hpage, if_neg him]
          exact hcont _ (countNodesList p.children)
            (checkNode_countBound.2 p.children cfg
              (getNodePageName p) [] s).1
            (checkNode_countBound.2 p.children cfg
              (getNodePageName p) [] s).2
            (by rw [hpt])
      · rw [if_neg hpc]
        have hi := ih s
        rw [hsum]
        constructor
        · have := hi.1
          omega
        · intro h2
          have := hi.2 h2
          omega

theorem searchStart_nodesProcessed (doc : Document) (v : VariableDef)
    (io : Bool) (pageId : Option String) (cbs : Callbacks) :
    (searchStart doc v io pageId cbs).nodesProcessed = 0 := by
  rw [searchStart]
  split
  · rfl
  · rfl

/-- C7: once the cancellation poll observes `true`, the walker stops at
that node leaving the state untouched (second conjunct), the sibling loop
and page loop unwind without visiting anything further (third and fourth
conjuncts, preserving the records accumulated so far), the search returns
normally with `cancelled = true`, and the number of visited nodes is
strictly below the pre-pass total (first conjunct). -/
theorem cancellation_partial_results (doc : Document)
    (env : String → LookupResult) (v : VariableDef) (io : Bool)
    (pageId : Option String) (cbs : Callbacks) :
    ((findNodesWithBoundVariable doc env v io pageId cbs).cancelled = true →
      (findNodesWithBoundVariable doc env v io pageId cbs).nodesProcessed
        < (findNodesWithBoundVariable doc env v io pageId cbs).totalNodes)
    ∧ (∀ (cfg : SearchConfig) (pg : String) (anc : List SceneNode)
        (d : NodeData) (children : NodeList) (s : SearchState),
        (cfg.cbs.hasShouldCancel &&
          cfg.cbs.shouldCancel s.nodesProcessed) = true →
        checkNode cfg pg anc (SceneNode.mk d children) s = (false, s))
    ∧ (∀ (cfg : SearchConfig) (pg : String) (anc : List SceneNode)
        (c : SceneNode) (cs : NodeList) (s : SearchState),
        (checkNode cfg pg anc c s).1 = false →
        checkChildren cfg pg anc (NodeList.cons c cs) s
          = (false, (checkNode cfg pg anc c s).2))
    ∧ (∀ (ps : List Page) (cfg : SearchConfig) (s : SearchState),
        runPages cfg ps (s, true) = (s, true)) := by
  refine ⟨?_, ?_, ?_, fun ps cfg s => runPages_cancelled cfg ps s⟩
  · intro h
    rw [findNodes_cancelled] at h
    by_cases hm : scopeMissing doc pageId = true
    · rw [if_pos hm] at h
      exact absurd h (by simp)
    · rw [if_neg hm] at h
      rw [findNodes_nodesProcessed, findNodes_totalNodes, if_neg hm,
        if_neg hm]
      have hb := (runPages_countBound (searchCfg doc env v io pageId cbs)
        (searchedPages doc pageId) (searchStart doc v io pageId cbs)).2 h
      have h0 := searchStart_nodesProcessed doc v io pageId cbs
      rw [h0] at hb
      have hrun : searchRun doc env v io pageId cbs
          = runPages (searchCfg doc env v io pageId cbs)
              (searchedPages doc pageId)
              (searchStart doc v io pageId cbs, false) := rfl
      have htot : searchTotal doc io pageId
          = ((searchedPages doc pageId).map
              (pageTotal (searchCfg doc env v io pageId cbs).instancesOnly)).sum
        := rfl
      rw [hrun, htot]
      omega
  · intro cfg pg anc d children s h
    rw [checkNode, if_pos h]
  · intro cfg pg anc c cs s h
    rw [checkChildren]
    rw [if_neg (fun hx => Bool.false_ne_true (h ▸ hx))]

/-- C7 witness: cancelling the three-node search after one visit ends it
with `cancelled = true` and one visited node out of three. -/
theorem cancellation_partial_results_witness :
    (findNodesWithBoundVariable docC8 envX varX false none
        cbsCancel).nodesProcessed
      < (findNodesWithBoundVariable docC8 envX varX false none
        cbsCancel).totalNodes :=
  (cancellation_partial_results docC8 envX varX false none cbsCancel).1 rfl

theorem eventInv_congr (total : Nat) (s s' : SearchState)
    (he : s'.progressEvents = s.progressEvents)
    (hn : s'.nodesProcessed = s.nodesProcessed)
    (h : EventInv total s) : EventInv total s' := by
  rw [EventInv, he, hn]
  rw [EventInv] at h
  exact h

/-- A state whose counter only grew keeps the invariant. -/
theorem eventInv_mono (total : Nat) (s s' : SearchState)
    (he : s'.progressEvents = s.progressEvents)
    (hn : s.nodesProcessed ≤ s'.nodesProcessed)
    (h : EventInv total s) : EventInv total s' := by
  rw [EventInv, he]
  rw [EventInv] at h
  refine ⟨h.1, fun e hme => ?_⟩
  have := h.2 e hme
  omega

/-- Appending the entry event (current = `min (np+1) total` at counter
`np+1`) keeps the invariant. -/
theorem eventInv_append (total : Nat) (s : SearchState) (nf : Nat)
    (h : EventInv total s) :
    EventInv total
      { s with nodesProcessed := s.nodesProcessed + 1
               progressEvents := s.progressEvents ++
                 [{ current := min (s.nodesProcessed + 1) total
                    total := total, nodesFound := nf }] } := by
  rw [EventInv] at h ⊢
  dsimp only
  constructor
  · rw [List.map_append]
    rw [List.pairwise_append]
    refine ⟨h.1, by simp, ?_⟩
    intro a ha b hb
    rw [List.mem_map] at ha
    obtain ⟨e, hme, hfe⟩ := ha
    rw [List.map_cons, List.map_nil, List.mem_singleton] at hb
    rw [hb, ← hfe]
    have := h.2 e hme
    dsimp only
    omega
  · intro e hme
    rcases List.mem_append.mp hme with h1 | h2
    · have := h.2 e h1
      omega
    · rw [List.mem_singleton] at h2
      rw [h2]

/-- The walker preserves the event invariant and only grows the counter. -/
theorem checkNode_eventInv :
    (∀ n : SceneNode, ∀ (cfg : SearchConfig) (pg : String)
        (anc : List SceneNode) (s : SearchState),
      EventInv cfg.totalNodes s →
      EventInv cfg.totalNodes (checkNode cfg pg anc n s).2
      ∧ s.nodesProcessed ≤ (checkNode cfg pg anc n s).2.nodesProcessed)
    ∧ (∀ cs : NodeList, ∀ (cfg : SearchConfig) (pg : String)
        (anc : List SceneNode) (s : SearchState),
      EventInv cfg.totalNodes s →
      EventInv cfg.totalNodes (checkChildren cfg pg anc cs s).2
      ∧ s.nodesProcessed
          ≤ (checkChildren cfg pg anc cs s).2.nodesProcessed) := by
  refine node_mutual_ind _ _ ?_ ?_ ?_
  · intro d cs ihcs cfg pg anc s hinv
    rw [checkNode]
    by_cases hc : (cfg.cbs.hasShouldCancel &&
        cfg.cbs.shouldCancel s.nodesProcessed) = true
    · rw [if_pos hc]
      exact ⟨hinv, Nat.le_refl _⟩
    · rw [if_neg hc]
      dsimp only
      have hsT : EventInv cfg.totalNodes
          { s with nodesProcessed := s.nodesProcessed + 1
                   progressEvents := s.progressEvents ++
                     [{ current := min (s.nodesProcessed + 1) cfg.totalNodes
                        total := cfg.totalNodes
                        nodesFound := s.boundNodes.length }] } :=
        eventInv_append cfg.totalNodes s s.boundNodes.length hinv
      have hsF : EventInv cfg.totalNodes
          { s with nodesProcessed := s.nodesProcessed + 1 } :=
        eventInv_mono cfg.totalNodes s _ rfl (Nat.le_succ _) hinv
      split
      · constructor
        · split
          · exact hsT
          · exact hsF
        · split <;> (dsimp only; omega)
      · split
        · constructor
          · split
            · exact hsT
            · exact hsF
          · split <;> (dsimp only; omega)
        · split
          · constructor
            · split
              · exact hsT
              · exact hsF
            · split <;> (dsimp only; omega)
          · split
            · -- childrenThrow: result is the recorded state
              constructor
              · refine eventInv_congr _ _ _
                  (recordMatch_fields _ _ _ _ _ _).2.1
                  (recordMatch_fields _ _ _ _ _ _).1 ?_
                split
                · exact hsT
                · exact hsF
              · rw [(recordMatch_fields _ _ _ _ _ _).1]
                split <;> (dsimp only; omega)
            · -- descend into the children
              set s2 : SearchState :=
                (if progressCondition cfg (s.nodesProcessed + 1) = true then
                  { s with nodesProcessed := s.nodesProcessed + 1
                           progressEvents := s.progressEvents ++
                             [{ current := min (s.nodesProcessed + 1)
                                  cfg.totalNodes
                                total := cfg.totalNodes
                                nodesFound := s.boundNodes.length }] }
                else { s with nodesProcessed := s.nodesProcessed + 1 })
                with hs2def
              have hs2inv : EventInv cfg.totalNodes s2 := by
                rw [hs2def]
                split
                · exact hsT
                · exact hsF
              have hs2n : s2.nodesProcessed = s.nodesProcessed + 1 := by
                rw [hs2def]
                split
                · rfl
                · rfl
              have h4inv : EventInv cfg.totalNodes
                  (recordMatch cfg (SceneNode.mk d cs) anc pg
                    (inspectProperties cfg.env cfg.variableDef.key d
                      s2.resolver).1
                    { s2 with resolver :=
                        (inspectProperties cfg.env cfg.variableDef.key d
                          s2.resolver).2 }) :=
                eventInv_congr _ _ _ (recordMatch_fields _ _ _ _ _ _).2.1
                  (recordMatch_fields _ _ _ _ _ _).1
                  (eventInv_congr _ _ _ rfl rfl hs2inv)
              have h4n : (recordMatch cfg (SceneNode.mk d cs) anc pg
                  (inspectProperties cfg.env cfg.variableDef.key d
                    s2.resolver).1
                  { s2 with resolver :=
                      (inspectProperties cfg.env cfg.variableDef.key d
                        s2.resolver).2 }).nodesProcessed
                  = s.nodesProcessed + 1 := by
                rw [(recordMatch_fields _ _ _ _ _ _).1]
                exact hs2n
              have hl := ihcs cfg pg (SceneNode.mk d cs :: anc) _ h4inv
              refine ⟨hl.1, Nat.le_trans ?_ hl.2⟩
              rw [h4n]
              omega
  · intro cfg pg anc s hinv
    rw [checkChildren]
    exact ⟨hinv, Nat.le_refl _⟩
  · intro c cs ihc ihcs cfg pg anc s hinv
    rw [checkChildren]
    have hc1 := ihc cfg pg anc s hinv
    split
    · have hl := ihcs cfg pg anc _ hc1.1
      exact ⟨hl.1, Nat.le_trans hc1.2 hl.2⟩
    · exact hc1

/-- The instance pre-scan preserves the event invariant. -/
theorem findInstances_eventInv :
    (∀ n : SceneNode, ∀ (cfg : SearchConfig) (pg : String)
        (anc : List SceneNode) (s : SearchState),
      EventInv cfg.totalNodes s →
      EventInv cfg.totalNodes (findInstancesInNode cfg pg anc n s).2)
    ∧ (∀ cs : NodeList, ∀ (cfg : SearchConfig) (pg : String)
        (anc : List SceneNode) (s : SearchState),
      EventInv cfg.totalNodes s →
      EventInv cfg.totalNodes (findInstancesInList cfg pg anc cs s).2) := by
  refine node_mutual_ind _ _ ?_ ?_ ?_
  · intro d cs ihcs cfg pg anc s hinv
    rw [findInstancesInNode]
    split
    · have hr := (checkNode_eventInv.1 (SceneNode.mk d cs) cfg pg anc s
        hinv).1
      split
      · exact ihcs cfg pg _ _ hr
      · exact hr
    · exact ihcs cfg pg _ _ hinv
  · intro cfg pg anc s hinv
    rw [findInstancesInList]
    exact hinv
  · intro c cs ihc ihcs cfg pg anc s hinv
    rw [findInstancesInList]
    split
    · exact ihcs cfg pg anc _ (ihc cfg pg anc s hinv)
    · exact ihc cfg pg anc s hinv

/-- The page loop preserves the event invariant. -/
theorem runPages_eventInv (cfg : SearchConfig) :
    ∀ (ps : List Page) (s : SearchState) (c : Bool),
      EventInv cfg.totalNodes s →
      EventInv cfg.totalNodes (runPages cfg ps (s, c)).1 := by
  intro ps
  induction ps with
  | nil =>
      intro s c h
      rw [runPages]
      exact h
  | cons p rest ih =>
      intro s c h
      rw [runPages]
      by_cases hpc : (p.ptype == "PAGE" && !c) = true
      · rw [if_pos hpc]
        dsimp only
        by_cases him : cfg.instancesOnly = true
        · rw [if_pos him]
          exact ih _ _ (findInstances_eventInv.2 p.children cfg
            (getNodePageName p) [] s h)
        · rw [if_neg him]
          exact ih _ _ ((checkNode_eventInv.2 p.children cfg
            (getNodePageName p) [] s h).1)
      · rw [if_neg hpc]
        exact ih s c h

theorem searchStart_eventInv (doc : Document) (v : VariableDef) (io : Bool)
    (pageId : Option String) (cbs : Callbacks) :
    EventInv (searchTotal doc io pageId)
      (searchStart doc v io pageId cbs) := by
  rw [searchStart]
  split
  · refine ⟨by simp, ?_⟩
    intro e hme
    dsimp only at hme
    rw [List.mem_singleton] at hme
    rw [hme]
    dsimp only
    omega
  · refine ⟨by simp [initialSearchState], ?_⟩
    intro e hme
    exact absurd hme (List.not_mem_nil e)

/-- The reported visited values of a whole search are monotonically
non-decreasing. -/
theorem search_eventsMonotone (doc : Document)
    (env : String → LookupResult) (v : VariableDef) (io : Bool)
    (pageId : Option String) (cbs : Callbacks) :
    List.Pairwise (fun a b => a ≤ b)
      ((findNodesWithBoundVariable doc env v io pageId
          cbs).progressEvents.map (fun e => e.current)) := by
  rw [findNodes_progressEvents]
  by_cases hm : scopeMissing doc pageId = true
  · rw [if_pos hm]
    simp
  · rw [if_neg hm]
    have hrun : EventInv (searchTotal doc io pageId)
        (searchRun doc env v io pageId cbs).1 :=
      runPages_eventInv (searchCfg doc env v io pageId cbs)
        (searchedPages doc pageId) _ false
        (searchStart_eventInv doc v io pageId cbs)
    split
    · rw [List.map_append]
      rw [List.pairwise_append]
      refine ⟨hrun.1, by simp, ?_⟩
      intro a ha b hb
      rw [List.mem_map] at ha
      obtain ⟨e, hme, hfe⟩ := ha
      rw [List.map_cons, List.map_nil, List.mem_singleton] at hb
      rw [hb, ← hfe]
      have := hrun.2 e hme
      dsimp only
      omega
    · exact hrun.1

/-- C8 (amended): the visited counts reported across successive progress
events are monotonically non-decreasing, and the in-traversal event at a
visit is emitted exactly when the post-increment visit ordinal `np`
satisfies `np % 10 == 0 || np == 1 || np == totalNodes` (given a progress
callback and a positive pre-pass total) — demonstrated on a pruned node so
that no descendant events interfere. Beyond these per-visit events the code
also emits one event with `visited = 0` before traversal and, when not
cancelled, a final event with `visited = total` after it (see the
counterexample), so events are NOT emitted exactly at the 10th/first/last
visits only. -/
theorem progress_cadence (doc : Document) (env : String → LookupResult)
    (v : VariableDef) (io : Bool) (pageId : Option String)
    (cbs : Callbacks) :
    List.Pairwise (fun a b => a ≤ b)
      ((findNodesWithBoundVariable doc env v io pageId
          cbs).progressEvents.map (fun e => e.current))
    ∧ (∀ (cfg : SearchConfig) (pg : String) (anc : List SceneNode)
        (d : NodeData) (children : NodeList) (s : SearchState),
        (cfg.cbs.hasShouldCancel &&
          cfg.cbs.shouldCancel s.nodesProcessed) = false →
        d.visible = false →
        (checkNode cfg pg anc (SceneNode.mk d children)
            s).2.progressEvents
          = s.progressEvents ++
            (if progressCondition cfg (s.nodesProcessed + 1) then
              [{ current := min (s.nodesProcessed + 1) cfg.totalNodes
                 total := cfg.totalNodes
                 nodesFound := s.boundNodes.length }]
            else [])) := by
  refine ⟨search_eventsMonotone doc env v io pageId cbs, ?_⟩
  intro cfg pg anc d children s hnc hv
  rw [checkNode, if_neg (fun hx => Bool.false_ne_true (hnc ▸ hx))]
  dsimp only
  by_cases hp : progressCondition cfg (s.nodesProcessed + 1) = true
  · rw [if_pos hp, if_pos hp]
    rw [hv]
    rfl
  · rw [if_neg hp, if_neg hp]
    rw [hv]
    rw [List.append_nil]
    rfl

/-- C8 witness: the cadence equation evaluated at a concrete pruned node on
the fresh state. -/
theorem progress_cadence_witness :
    (checkNode cfgD "Page 1" []
        (SceneNode.mk { plainData "H" "H" "FRAME" with visible := false }
          NodeList.nil)
        (initialSearchState varX)).2.progressEvents
      = (initialSearchState varX).progressEvents ++
        (if progressCondition cfgD
            ((initialSearchState varX).nodesProcessed + 1) then
          [{ current := min ((initialSearchState varX).nodesProcessed + 1)
               cfgD.totalNodes
             total := cfgD.totalNodes
             nodesFound := (initialSearchState varX).boundNodes.length }]
        else []) :=
  (progress_cadence (onePage NodeList.nil) envX varX false none
      noCallbacks).2 cfgD "Page 1" []
    { plainData "H" "H" "FRAME" with visible := false } NodeList.nil
    (initialSearchState varX) rfl rfl

/-! ## C6: visibility pruning, direct mode -/
/-- In direct mode, the records a node walk appends reference only nodes on
all-visible, all-unlocked paths. -/
theorem recordMatch_direct_boundNodes (cfg : SearchConfig)
    (node : SceneNode) (anc : List SceneNode) (pg : String)
    (props : List String) (s : SearchState)
    (hio : cfg.instancesOnly = false) :
    (recordMatch cfg node anc pg props s).boundNodes
      = s.boundNodes ++
        (if props.length > 0 then
          [{ node := node, boundProperties := props
             propertyPath := getNodePath node anc, pageName := pg }]
        else []) := by
  rw [recordMatch, hio]
  by_cases hp : props.length > 0
  · rw [if_pos hp, if_pos hp]
    rfl
  · rw [if_neg hp, if_neg hp]
    rw [List.append_nil]

theorem checkNode_visibleReach :
    (∀ n : SceneNode, ∀ (cfg : SearchConfig) (pg : String)
        (anc : List SceneNode) (s : SearchState),
      cfg.instancesOnly = false →
      ∀ r ∈ (checkNode cfg pg anc n s).2.boundNodes,
        r ∈ s.boundNodes ∨ r.node ∈ visibleReachable n)
    ∧ (∀ cs : NodeList, ∀ (cfg : SearchConfig) (pg : String)
        (anc : List SceneNode) (s : SearchState),
      cfg.instancesOnly = false →
      ∀ r ∈ (checkChildren cfg pg anc cs s).2.boundNodes,
        r ∈ s.boundNodes ∨ r.node ∈ visibleReachableList cs) := by
  refine node_mutual_ind _ _ ?_ ?_ ?_
  · intro d cs ihcs cfg pg anc s hio r
    rw [checkNode]
    by_cases hc : (cfg.cbs.hasShouldCancel &&
        cfg.cbs.shouldCancel s.nodesProcessed) = true
    · rw [if_pos hc]
      intro hr
      exact Or.inl hr
    · rw [if_neg hc]
      dsimp only
      set s2 : SearchState :=
        (if progressCondition cfg (s.nodesProcessed + 1) = true then
          { s with nodesProcessed := s.nodesProcessed + 1
                   progressEvents := s.progressEvents ++
                     [{ current := min (s.nodesProcessed + 1) cfg.totalNodes
                        total := cfg.totalNodes
                        nodesFound := s.boundNodes.length }] }
        else { s with nodesProcessed := s.nodesProcessed + 1 })
        with hs2def
      have hs2b : s2.boundNodes = s.boundNodes := by
        rw [hs2def]
        split
        · rfl
        · rfl
      by_cases hvis : (d.visible == false) = true
      · rw [if_pos hvis]
        intro hr
        dsimp only at hr
        rw [hs2b] at hr
        exact Or.inl hr
      · rw [if_neg hvis]
        by_cases hlock : (d.locked == true) = true
        · rw [if_pos hlock]
          intro hr
          dsimp only at hr
          rw [hs2b] at hr
          exact Or.inl hr
        · rw [if_neg hlock]
          by_cases hpt : d.propsThrow = true
          · rw [if_pos hpt]
            intro hr
            dsimp only at hr
            rw [hs2b] at hr
            exact Or.inl hr
          · rw [if_neg hpt]
            have hvis2 : d.visible = true := by
              cases hb : d.visible
              · rw [hb] at hvis
                simp at hvis
              · rfl
            have hlock2 : d.locked = false := by
              cases hb : d.locked
              · rfl
              · rw [hb] at hlock
                simp at hlock
            have hvr : visibleReachable (SceneNode.mk d cs)
                = SceneNode.mk d cs :: visibleReachableList cs := by
              rw [visibleReachable, hvis2, hlock2]
              rfl
            have hmem4 : ∀ r2 : BoundNodeInfo,
                r2 ∈ (recordMatch cfg (SceneNode.mk d cs) anc pg
                  (inspectProperties cfg.env cfg.variableDef.key d
                    s2.resolver).1
                  { s2 with resolver :=
                      (inspectProperties cfg.env cfg.variableDef.key d
                        s2.resolver).2 }).boundNodes →
                r2 ∈ s.boundNodes
                  ∨ r2.node ∈ visibleReachable (SceneNode.mk d cs) := by
              intro r2 h1
              rw [recordMatch_direct_boundNodes _ _ _ _ _ _ hio] at h1
              dsimp only at h1
              rw [hs2b] at h1
              rcases List.mem_append.mp h1 with h3 | h4
              · exact Or.inl h3
              · refine Or.inr ?_
                rw [hvr]
                by_cases hp : (inspectProperties cfg.env
                    cfg.variableDef.key d s2.resolver).1.length > 0
                · rw [if_pos hp] at h4
                  rw [List.mem_singleton] at h4
                  rw [h4]
                  exact List.mem_cons_self _ _
                · rw [if_neg hp] at h4
                  exact absurd h4 (List.not_mem_nil r2)
            by_cases hct : d.childrenThrow = true
            · rw [if_pos hct]
              intro hr
              exact hmem4 r hr
            · rw [if_neg hct]
              intro hr
              rcases ihcs cfg pg (SceneNode.mk d cs :: anc) _ hio r hr
                with h1 | h2
              · exact hmem4 r h1
              · refine Or.inr ?_
                rw [hvr]
                exact List.mem_cons_of_mem _ h2
  · intro cfg pg anc s hio r
    rw [checkChildren]
    intro hr
    exact Or.inl hr
  · intro c cs ihc ihcs cfg pg anc s hio r
    rw [checkChildren]
    have hsub : ∀ m : SceneNode, m ∈ visibleReachable c →
        m ∈ visibleReachableList (NodeList.cons c cs) := by
      intro m hm
      rw [visibleReachableList]
      exact List.mem_append.mpr (Or.inl hm)
    split
    · intro hr
      rcases ihcs cfg pg anc _ hio r hr with h1 | h2
      · rcases ihc cfg pg anc s hio r h1 with h3 | h4
        · exact Or.inl h3
        · exact Or.inr (hsub _ h4)
      · refine Or.inr ?_
        rw [visibleReachableList]
        exact List.mem_append.mpr (Or.inr h2)
    · intro hr
      dsimp only at hr
      rcases ihc cfg pg anc s hio r hr with h3 | h4
      · exact Or.inl h3
      · exact Or.inr (hsub _ h4)

theorem runPages_visibleReach (cfg : SearchConfig)
    (hio : cfg.instancesOnly = false) :
    ∀ (ps : List Page) (s : SearchState) (c : Bool),
      ∀ r ∈ (runPages cfg ps (s, c)).1.boundNodes,
        r ∈ s.boundNodes ∨
          r.node ∈ (ps.map (fun p => if p.ptype == "PAGE" then
            visibleReachableList p.children else [])).flatten := by
  intro ps
  induction ps with
  | nil =>
      intro s c r hr
      rw [runPages] at hr
      exact Or.inl hr
  | cons p rest ih =>
      intro s c r hr
      rw [List.map_cons, List.flatten_cons]
      rw [runPages] at hr
      by_cases hpc : (p.ptype == "PAGE" && !c) = true
      · rw [if_pos hpc] at hr
        dsimp only at hr
        rw [if_neg (fun hx => Bool.false_ne_true (hio ▸ hx))] at hr
        have hpage : (p.ptype == "PAGE") = true := by
          have h2 : p.ptype = "PAGE" ∧ c = false := by simpa using hpc
          exact beq_iff_eq.mpr h2.1
        rcases ih _ _ r hr with h1 | h2
        · rcases checkNode_visibleReach.2 p.children cfg
            (getNodePageName p) [] s hio r h1 with h3 | h4
          · exact Or.inl h3
          · refine Or.inr (List.mem_append.mpr (Or.inl ?_))
            rw [if_pos hpage]
            exact h4
        · exact Or.inr (List.mem_append.mpr (Or.inr h2))
      · rw [if_neg hpc] at hr
        rcases ih s c r hr with h1 | h2
        · exact Or.inl h1
        · exact Or.inr (List.mem_append.mpr (Or.inr h2))

theorem searchStart_boundNodes (doc : Document) (v : VariableDef)
    (io : Bool) (pageId : Option String) (cbs : Callbacks) :
    (searchStart doc v io pageId cbs).boundNodes = [] := by
  rw [searchStart]
  split
  · rfl
  · rfl

/-- Every record of a direct-mode search references a node on an
all-visible, all-unlocked path of the searched scope. -/
theorem search_visibleScope (doc : Document) (env : String → LookupResult)
    (v : VariableDef) (pageId : Option String) (cbs : Callbacks) :
    ∀ r ∈ (findNodesWithBoundVariable doc env v false pageId
        cbs).boundNodes, r.node ∈ visibleScope doc pageId := by
  intro r hr
  rw [findNodes_boundNodes] at hr
  by_cases hm : scopeMissing doc pageId = true
  · rw [if_pos hm] at hr
    exact absurd hr (List.not_mem_nil r)
  · rw [if_neg hm] at hr
    rcases runPages_visibleReach (searchCfg doc env v false pageId cbs) rfl
      (searchedPages doc pageId) (searchStart doc v false pageId cbs)
      false r hr with h1 | h2
    · rw [searchStart_boundNodes] at h1
      exact absurd h1 (List.not_mem_nil r)
    · exact h2

theorem visibleReachable_subset :
    (∀ n : SceneNode, ∀ y ∈ visibleReachable n, y ∈ subtreeNodes n)
    ∧ (∀ cs : NodeList, ∀ y ∈ visibleReachableList cs,
        y ∈ subtreeNodesList cs) := by
  refine node_mutual_ind _ _ ?_ ?_ ?_
  · intro d cs ih y hy
    rw [visibleReachable] at hy
    rw [subtreeNodes]
    split at hy
    · rcases List.mem_cons.mp hy with h1 | h2
      · rw [h1]
        exact List.mem_cons_self _ _
      · exact List.mem_cons_of_mem _ (ih y h2)
    · exact absurd hy (List.not_mem_nil y)
  · intro y hy
    rw [visibleReachableList] at hy
    exact absurd hy (List.not_mem_nil y)
  · intro c cs ihc ihcs y hy
    rw [visibleReachableList] at hy
    rw [subtreeNodesList]
    rcases List.mem_append.mp hy with h1 | h2
    · exact List.mem_append.mpr (Or.inl (ihc y h1))
    · exact List.mem_append.mpr (Or.inr (ihcs y h2))

theorem subtree_trans :
    (∀ n : SceneNode, ∀ x ∈ subtreeNodes n, ∀ y ∈ subtreeNodes x,
      y ∈ subtreeNodes n)
    ∧ (∀ cs : NodeList, ∀ x ∈ subtreeNodesList cs, ∀ y ∈ subtreeNodes x,
      y ∈ subtreeNodesList cs) := by
  refine node_mutual_ind _ _ ?_ ?_ ?_
  · intro d cs ih x hx y hy
    rw [subtreeNodes] at hx ⊢
    rcases List.mem_cons.mp hx with h1 | h2
    · rw [h1] at hy
      rw [subtreeNodes] at hy
      exact hy
    · exact List.mem_cons_of_mem _ (ih x h2 y hy)
  · intro x hx
    rw [subtreeNodesList] at hx
    exact absurd hx (List.not_mem_nil x)
  · intro c cs ihc ihcs x hx y hy
    rw [subtreeNodesList] at hx ⊢
    rcases List.mem_append.mp hx with h1 | h2
    · exact List.mem_append.mpr (Or.inl (ihc x h1 y hy))
    · exact List.mem_append.mpr (Or.inr (ihcs x h2 y hy))

/-- With pairwise-distinct node ids, no node of the subtree of an invisible
or locked node lies on an all-visible path. -/
theorem hidden_not_visible :
    (∀ n : SceneNode,
      ((subtreeNodes n).map (fun m => m.data.id)).Nodup →
      ∀ x : SceneNode, (x.data.visible = false ∨ x.data.locked = true) →
      x ∈ subtreeNodes n → ∀ y ∈ subtreeNodes x, y ∉ visibleReachable n)
    ∧ (∀ cs : NodeList,
      ((subtreeNodesList cs).map (fun m => m.data.id)).Nodup →
      ∀ x : SceneNode, (x.data.visible = false ∨ x.data.locked = true) →
      x ∈ subtreeNodesList cs → ∀ y ∈ subtreeNodes x,
        y ∉ visibleReachableList cs) := by
  refine node_mutual_ind _ _ ?_ ?_ ?_
  · intro d cs ih hnodup x hx hxmem y hymem hyvis
    rw [visibleReachable] at hyvis
    split at hyvis
    case isTrue hcond =>
      have hcond2 : d.visible = true ∧ d.locked = false := by
        simpa using hcond
      have hv := hcond2.1
      have hl := hcond2.2
      rw [subtreeNodes] at hxmem hnodup
      rw [List.map_cons, List.nodup_cons] at hnodup
      obtain ⟨hid, hnodup2⟩ := hnodup
      have hxne : x ∈ subtreeNodesList cs := by
        rcases List.mem_cons.mp hxmem with hx1 | hx2
        · exfalso
          rw [hx1] at hx
          rcases hx with h | h
          · have h2 : d.visible = false := h
            rw [hv] at h2
            simp at h2
          · have h2 : d.locked = true := h
            rw [hl] at h2
            simp at h2
        · exact hx2
      rcases List.mem_cons.mp hyvis with hy1 | hy2
      · rw [hy1] at hymem
        have hmem2 : SceneNode.mk d cs ∈ subtreeNodesList cs :=
          subtree_trans.2 cs x hxne _ hymem
        exact hid (List.mem_map_of_mem _ hmem2)
      · exact ih hnodup2 x hx hxne y hymem hy2
    case isFalse =>
      exact absurd hyvis (List.not_mem_nil y)
  · intro hnodup x hx hxmem y hymem hyvis
    rw [subtreeNodesList] at hxmem
    exact absurd hxmem (List.not_mem_nil x)
  · intro c cs ihc ihcs hnodup x hx hxmem y hymem hyvis
    rw [subtreeNodesList] at hxmem hnodup
    rw [visibleReachableList] at hyvis
    rw [List.map_append, List.nodup_append] at hnodup
    obtain ⟨hn1, hn2, hdisj⟩ := hnodup
    rcases List.mem_append.mp hxmem with hx1 | hx2 <;>
      rcases List.mem_append.mp hyvis with hy1 | hy2
    · exact ihc hn1 x hx hx1 y hymem hy1
    · have hyc : y ∈ subtreeNodes c := subtree_trans.1 c x hx1 y hymem
      have hycs : y ∈ subtreeNodesList cs :=
        visibleReachable_subset.2 cs y hy2
      exact hdisj (List.mem_map_of_mem _ hyc) (List.mem_map_of_mem _ hycs)
    · have hycs : y ∈ subtreeNodesList cs := subtree_trans.2 cs x hx2 y hymem
      have hyc : y ∈ subtreeNodes c := visibleReachable_subset.1 c y hy1
      exact hdisj (List.mem_map_of_mem _ hyc) (List.mem_map_of_mem _ hycs)
    · exact ihcs hn2 x hx hx2 y hymem hy2

theorem pagesScope_trans (ps : List Page) :
    ∀ x ∈ (ps.map (fun p => if p.ptype == "PAGE" then
        subtreeNodesList p.children else [])).flatten,
      ∀ y ∈ subtreeNodes x,
        y ∈ (ps.map (fun p => if p.ptype == "PAGE" then
          subtreeNodesList p.children else [])).flatten := by
  induction ps with
  | nil =>
      intro x hx
      simp at hx
  | cons p rest ih =>
      intro x hx y hy
      rw [List.map_cons, List.flatten_cons] at hx ⊢
      rcases List.mem_append.mp hx with h1 | h2
      · refine List.mem_append.mpr (Or.inl ?_)
        by_cases hpage : (p.ptype == "PAGE") = true
        · rw [if_pos hpage] at h1 ⊢
          exact subtree_trans.2 p.children x h1 y hy
        · rw [if_neg hpage] at h1
          exact absurd h1 (List.not_mem_nil x)
      · exact List.mem_append.mpr (Or.inr (ih x h2 y hy))

theorem pagesScope_vr_subset (ps : List Page) :
    ∀ y ∈ (ps.map (fun p => if p.ptype == "PAGE" then
        visibleReachableList p.children else [])).flatten,
      y ∈ (ps.map (fun p => if p.ptype == "PAGE" then
        subtreeNodesList p.children else [])).flatten := by
  induction ps with
  | nil =>
      intro y hy
      simp at hy
  | cons p rest ih =>
      intro y hy
      rw [List.map_cons, List.flatten_cons] at hy ⊢
      rcases List.mem_append.mp hy with h1 | h2
      · refine List.mem_append.mpr (Or.inl ?_)
        by_cases hpage : (p.ptype == "PAGE") = true
        · rw [if_pos hpage] at h1 ⊢
          exact visibleReachable_subset.2 p.children y h1
        · rw [if_neg hpage] at h1
          exact absurd h1 (List.not_mem_nil y)
      · exact List.mem_append.mpr (Or.inr (ih y h2))

theorem pagesScope_hidden (ps : List Page) :
    (((ps.map (fun p => if p.ptype == "PAGE" then
        subtreeNodesList p.children else [])).flatten.map
      (fun m => m.data.id)).Nodup) →
    ∀ x : SceneNode, (x.data.visible = false ∨ x.data.locked = true) →
    x ∈ (ps.map (fun p => if p.ptype == "PAGE" then
        subtreeNodesList p.children else [])).flatten →
    ∀ y ∈ subtreeNodes x,
      y ∉ (ps.map (fun p => if p.ptype == "PAGE" then
        visibleReachableList p.children else [])).flatten := by
  induction ps with
  | nil =>
      intro _ x _ hxmem
      simp at hxmem
  | cons p rest ih =>
      intro hnodup x hx hxmem y hymem hyvis
      rw [List.map_cons, List.flatten_cons] at hxmem hyvis
      rw [List.map_cons, List.flatten_cons, List.map_append,
        List.nodup_append] at hnodup
      obtain ⟨hn1, hn2, hdisj⟩ := hnodup
      rcases List.mem_append.mp hxmem with hx1 | hx2 <;>
        rcases List.mem_append.mp hyvis with hy1 | hy2
      · by_cases hpage : (p.ptype == "PAGE") = true
        · rw [if_pos hpage] at hx1 hy1
          rw [if_pos hpage] at hn1
          exact hidden_not_visible.2 p.children hn1 x hx hx1 y hymem hy1
        · rw [if_neg hpage] at hx1
          exact absurd hx1 (List.not_mem_nil x)
      · by_cases hpage : (p.ptype == "PAGE") = true
        · rw [if_pos hpage] at hx1
          have hyhead : y ∈ (if p.ptype == "PAGE" then
              subtreeNodesList p.children else []) := by
            rw [if_pos hpage]
            exact subtree_trans.2 p.children x hx1 y hymem
          have hytail : y ∈ (rest.map (fun p => if p.ptype == "PAGE" then
              subtreeNodesList p.children else [])).flatten :=
            pagesScope_vr_subset rest y hy2
          exact hdisj (List.mem_map_of_mem _ hyhead)
            (List.mem_map_of_mem _ hytail)
        · rw [if_neg hpage] at hx1
          exact absurd hx1 (List.not_mem_nil x)
      · have hytail : y ∈ (rest.map (fun p => if p.ptype == "PAGE" then
            subtreeNodesList p.children else [])).flatten :=
          pagesScope_trans rest x hx2 y hymem
        have hyhead : y ∈ (if p.ptype == "PAGE" then
            subtreeNodesList p.children else []) := by
          by_cases hpage : (p.ptype == "PAGE") = true
          · rw [if_pos hpage]
            rw [if_pos hpage] at hy1
            exact visibleReachable_subset.2 p.children y hy1
          · rw [if_neg hpage] at hy1
            exact absurd hy1 (List.not_mem_nil y)
        exact hdisj (List.mem_map_of_mem _ hyhead)
          (List.mem_map_of_mem _ hytail)
      · exact ih hn2 x hx hx2 y hymem hy2

theorem scopeNodes_trans (doc : Document) (pageId : Option String) :
    ∀ x ∈ scopeNodes doc pageId, ∀ y ∈ subtreeNodes x,
      y ∈ scopeNodes doc pageId := by
  rw [scopeNodes]
  exact pagesScope_trans (searchedPages doc pageId)

theorem visibleScope_subset (doc : Document) (pageId : Option String) :
    ∀ y ∈ visibleScope doc pageId, y ∈ scopeNodes doc pageId := by
  rw [visibleScope, scopeNodes]
  exact pagesScope_vr_subset (searchedPages doc pageId)

/-- C6 (amended): in DIRECT mode, every reported record references a node
on an all-visible, all-unlocked path of the searched scope; consequently,
when node ids are pairwise distinct, no record references (by id) any node
of the subtree of an invisible or locked node — the node and its whole
subtree are absent from the results. In representative-only mode this fails:
the instance pre-scan descends through invisible nodes without checking
visibility, so an instance nested below an invisible ancestor can still be
reported (see the counterexample). -/
theorem visibility_pruning (doc : Document) (env : String → LookupResult)
    (v : VariableDef) (pageId : Option String) (cbs : Callbacks)
    (x : SceneNode) (r : BoundNodeInfo) (y : SceneNode)
    (hnodup : ((scopeNodes doc pageId).map (fun m => m.data.id)).Nodup)
    (hx : x.data.visible = false ∨ x.data.locked = true)
    (hxmem : x ∈ scopeNodes doc pageId)
    (hr : r ∈ (findNodesWithBoundVariable doc env v false pageId
        cbs).boundNodes)
    (hy : y ∈ subtreeNodes x) :
    r.node ∈ visibleScope doc pageId ∧ r.node.data.id ≠ y.data.id := by
  have h1 := search_visibleScope doc env v pageId cbs r hr
  refine ⟨h1, ?_⟩
  intro heq
  have hys : y ∈ scopeNodes doc pageId := scopeNodes_trans doc pageId x hxmem y hy
  have hrs : r.node ∈ scopeNodes doc pageId := visibleScope_subset doc pageId _ h1
  have hEq : r.node = y := List.inj_on_of_nodup_map hnodup hrs hys heq
  rw [hEq] at h1
  rw [visibleScope] at h1
  rw [scopeNodes] at hnodup hxmem
  exact pagesScope_hidden (searchedPages doc pageId) hnodup x hx hxmem y hy h1

/-- C6 witness: on the concrete document the single record (the visible
sibling `S6`) lies on a visible path and its id differs from the id of the
hidden instance `I` below the invisible frame `F`. -/
theorem visibility_pruning_witness :
    ({ node := matchRect "S6", boundProperties := ["fills[0].color"]
       propertyPath := "S6", pageName := "Page 1" } : BoundNodeInfo).node
        ∈ visibleScope docC6W none
    ∧ ({ node := matchRect "S6", boundProperties := ["fills[0].color"]
         propertyPath := "S6", pageName := "Page 1" } :
        BoundNodeInfo).node.data.id ≠ nodeC6I.data.id :=
  visibility_pruning docC6W envX varX none noCallbacks nodeC6F
    { node := matchRect "S6", boundProperties := ["fills[0].color"]
      propertyPath := "S6", pageName := "Page 1" } nodeC6I
    (by decide) (Or.inl rfl) (List.Mem.head _) (List.Mem.head _)
    (List.Mem.tail _ (List.Mem.head _))

end FindThisVar
